import Mathlib

/-!
# FastDFS client (giantpoplar/fdfs): wire framing and request building

A shallow embedding of the `cluster` package: fixed-width string fields
(`util.go`), the 10-byte header (`header.go`), the request/response cycle
(`request.go`), the storage and tracker clients (`storage.go`, `tracker.go`,
`storageconfig.go`), the storage groups with their lock (`storagegroup.go`),
the cluster with its topology and operations (`cluster.go`), the error type
(`error.go`), and the registry of clusters (`client.go`).

Go strings and byte slices are byte sequences; both are lists of bytes here.
Go's `int` and `int64` are 64-bit two's-complement integers; they are `Int`
values, wrapped explicitly where the source computes or converts them.
-/

namespace Fdfs

/-! ## Bytes, strings and integers -/

/-- One byte. -/
abbrev Byte := Fin 256

/-- A Go `[]byte`. -/
abbrev Bytes := List Byte

/-- A Go `string`: an immutable sequence of bytes. -/
abbrev GoString := List Byte

/-- Go's conversion `byte(v)` of an unsigned value: the low eight bits. -/
def byteOf (n : Nat) : Byte := ⟨n % 256, Nat.mod_lt n (by decide)⟩

/-- An ASCII string literal of the source as a Go string. -/
def str (s : String) : GoString := s.data.map (fun c => byteOf c.toNat)

/-- The NUL byte. -/
def NUL : Byte := 0

/-- The byte of the path separator `/`. -/
def SLASH : Byte := 47

/-- Go's conversion to `int64` (and 64-bit `int` arithmetic): wrap into
`[-2^63, 2^63)`. -/
def int64 (v : Int) : Int := (v + 2 ^ 63) % 2 ^ 64 - 2 ^ 63

/-- The values an `int64` can hold. -/
def InInt64 (v : Int) : Prop := -(2 ^ 63) ≤ v ∧ v < 2 ^ 63

instance (v : Int) : Decidable (InInt64 v) := by
  unfold InInt64; exact inferInstance

/-- Go's conversion `uint64(v)` of an `int64`: the two's-complement bits. -/
def uint64 (v : Int) : Nat := (v % 2 ^ 64).toNat

/-- Go's `binary.BigEndian.PutUint64`: `b[0] = byte(v >> 56)`, ...,
`b[7] = byte(v)`. -/
def PutUint64 (v : Nat) : Bytes :=
  [byteOf (v / 2 ^ 56), byteOf (v / 2 ^ 48), byteOf (v / 2 ^ 40), byteOf (v / 2 ^ 32),
   byteOf (v / 2 ^ 24), byteOf (v / 2 ^ 16), byteOf (v / 2 ^ 8), byteOf v]

/-- Go's `binary.BigEndian.Uint64` on the first eight bytes of `b`
(a missing byte reads as zero; every caller passes eight bytes). -/
def Uint64 (b : Bytes) : Nat :=
  (b.getD 7 0).val + (b.getD 6 0).val * 2 ^ 8 + (b.getD 5 0).val * 2 ^ 16
    + (b.getD 4 0).val * 2 ^ 24 + (b.getD 3 0).val * 2 ^ 32 + (b.getD 2 0).val * 2 ^ 40
    + (b.getD 1 0).val * 2 ^ 48 + (b.getD 0 0).val * 2 ^ 56

/-- Go's conversion `int64(u)` of a `uint64`: reinterpret the bits. -/
def toInt64 (u : Nat) : Int := if u < 2 ^ 63 then (u : Int) else (u : Int) - 2 ^ 64

/-- The bytes `binary.Write(buffer, binary.BigEndian, v)` appends for an
`int64` value `v`. -/
def binaryWriteInt64 (buffer : Bytes) (v : Int) : Bytes := buffer ++ PutUint64 (uint64 v)

/-- Decimal digits of `n`, most significant first, for `%d`. -/
def decimalAux : Nat → Nat → Bytes → Bytes
  | 0, _, acc => acc
  | fuel + 1, n, acc =>
    if n / 10 = 0 then byteOf (48 + n % 10) :: acc
    else decimalAux fuel (n / 10) (byteOf (48 + n % 10) :: acc)

/-- The `%d` rendering of an unsigned value. -/
def formatUint (n : Nat) : GoString := decimalAux (n + 1) n []

/-- The `%d` rendering of a signed value. -/
def formatInt (v : Int) : GoString :=
  if v < 0 then (45 : Byte) :: formatUint (-v).toNat else formatUint v.toNat

/-! ## util.go -/

/-- Go's `strings.IndexByte`: the index of the first `c` in `s`, `none` for
Go's `-1`. -/
def IndexByte : GoString → Byte → Option Nat
  | [], _ => none
  | b :: bs, c => if b = c then some 0 else (IndexByte bs c).map (· + 1)

/-- util.go `stripString`: cut `s` at its first NUL byte. -/
def stripString (s : GoString) : GoString :=
  match IndexByte s NUL with
  | some i => s.take i
  | none => s

/-- util.go `fixString`: a zeroed buffer of `fix_length` bytes, the first
`min(len(s), fix_length)` bytes copied from `s` by the first loop, the rest
set to zero by the second loop. -/
def fixString (s : GoString) (fix_length : Nat) : GoString :=
  let buff : Bytes := List.replicate fix_length 0
  let l := if s.length > fix_length then fix_length else s.length
  let buff := (List.range l).foldl (fun buff i => buff.set i (s.getD i 0)) buff
  let buff := (List.range' l (fix_length - l)).foldl (fun buff i => buff.set i 0) buff
  buff

/-- The spec's decoding of a field: the bytes before the first NUL. -/
def cutAtNul (s : GoString) : GoString := s.takeWhile (fun b => b ≠ NUL)

/-! ## error.go -/

/-- error.go `Error`: a dotted name path and the message of the wrapped Go
error. -/
structure Error where
  name : GoString
  detail : GoString
deriving DecidableEq, Repr

/-- error.go `NewError`. -/
def NewError (name : GoString) (err : GoString) : Error := ⟨name, err⟩

/-- error.go `Error.Wrap`: `fmt.Sprintf("%s.%s", name, err.name)`. -/
def Error.Wrap (err : Error) (name : GoString) : Error :=
  { err with name := name ++ str "." ++ err.name }

/-- error.go `unexpectedPkgLenErr`. -/
def unexpectedPkgLenErr (receive expect : Int) : Error :=
  NewError (str " UnexpectedLenErr")
    (str "received pkg length " ++ formatInt receive ++ str " != expected " ++ formatInt expect)

/-- error.go `wrongFidErr`. -/
def wrongFidErr (fid : GoString) : Error :=
  NewError (str "WrongFidErr") (str "fid is not with format group/filename: " ++ fid)

/-- error.go `getConnErr`. -/
def getConnErr (err : GoString) : Error := NewError (str "GetConnFromPoolErr") err

/-! ## The pooled connection

The pool library (`github.com/giantpoplar/pool`) is outside the repository.
A connection is the bytes the peer has still to deliver, the bytes written so
far, the flag set by `MarkUnusable`, and the error (if any) its writes fail
with. -/

/-- A pooled connection (`*pool.WrappedConn`). -/
structure Conn where
  input : Bytes
  output : Bytes
  unusable : Bool
  writeErr : Option GoString
deriving DecidableEq, Repr

/-- The message of `io.ErrUnexpectedEOF` / `io.EOF`, returned by a full read
that finds too few bytes. -/
def errEOF (got : Nat) : GoString := if got = 0 then str "EOF" else str "unexpected EOF"

/-- Go's `io.ReadFull(conn, buf)` with `len(buf) = n`: exactly `n` bytes, or an
error after consuming what there was. -/
def ReadFull (c : Conn) (n : Nat) : Conn × Except GoString Bytes :=
  if n ≤ c.input.length then ({ c with input := c.input.drop n }, .ok (c.input.take n))
  else ({ c with input := [] }, .error (errEOF c.input.length))

/-- The connection's `Write`: all of `p` is appended to the output, unless
writes fail. -/
def Conn.Write (c : Conn) (p : Bytes) : Except GoString Conn :=
  match c.writeErr with
  | some e => .error e
  | none => .ok { c with output := c.output ++ p }

/-- The connection's `MarkUnusable`. -/
def Conn.MarkUnusable (c : Conn) : Conn := { c with unusable := true }

/-! ## header.go -/

/-- header.go `header`. -/
structure header where
  pkgLen : Int
  cmd : Byte
  status : Byte
deriving DecidableEq, Repr

/-- header.go `header.buffer`: `pkgLen` big-endian, then `cmd`, then `status`. -/
def header.buffer (h : header) : Bytes :=
  let buffer : Bytes := []
  let buffer := binaryWriteInt64 buffer h.pkgLen
  let buffer := buffer ++ [h.cmd]
  let buffer := buffer ++ [h.status]
  buffer

/-- header.go `header.statusCodeErr`. -/
def header.statusCodeErr (h : header) : GoString :=
  if h.status = 2 then str "receive fileNotExist status code 2"
  else if h.status = 22 then str "receive invalidParameter status code 22"
  else str "status code " ++ formatInt h.status.val ++ str " != 0"

/-- header.go `header.read`: the header after the call (fields are assigned as
they are decoded), the connection, and the returned error (`none` for `nil`). -/
def header.read (h : header) (conn : Conn) : header × Conn × Option GoString :=
  match ReadFull conn 10 with
  | (conn, .error err) => (h, conn, some err)
  | (conn, .ok data) =>
    let h := { h with pkgLen := toInt64 (Uint64 (data.take 8)) }
    if h.pkgLen < 0 then
      (h, conn, some (str "wrong pkg length: " ++ formatInt h.pkgLen))
    else
      let h := { h with cmd := data.getD 8 0 }
      let h := { h with status := data.getD 9 0 }
      if h.status ≠ 0 then (h, conn, some h.statusCodeErr)
      else (h, conn, none)

/-! ## request.go -/

/-- request.go `request`; `body` is `none` for a nil slice. A builder that sets
`body: b` gives `some b`: for a nil `b` nothing is written, as for an empty
one. -/
structure request where
  c : Conn
  header : Bytes
  body : Option Bytes
  respLimit : Int
deriving DecidableEq, Repr

/-- What a request yields: the response body, an error, or no return at all,
when `make` panics. -/
inductive Response where
  | ok (resp : Bytes) : Response
  | error (err : Error) : Response
  | panic : Response
deriving DecidableEq, Repr

/-- request.go `request.readResponse`: the connection afterwards and what is
returned. `maxAlloc` is the largest length for which `make([]byte, n)` yields a
slice on the machine at hand; beyond it `make` panics (the runtime refuses the
length, or is out of memory) and the method does not return. -/
def request.readResponse (maxAlloc : Nat) (r : request) : Conn × Response :=
  match header.read ⟨0, 0, 0⟩ r.c with
  | (_, c, some err) => (c, .error (NewError (str "ReadResponseHeaderErr") err))
  | (h, c, none) =>
    if r.respLimit > 0 ∧ h.pkgLen > r.respLimit then
      (c.MarkUnusable, .error (NewError (str "WrongPkgLengthErr")
        (str "receive header pkg length " ++ formatInt h.pkgLen
          ++ str " exceed expected or limit size: " ++ formatInt r.respLimit)))
    else if h.pkgLen.toNat > maxAlloc then
      -- resp := make([]byte, h.pkgLen)
      (c, .panic)
    else
      match ReadFull c h.pkgLen.toNat with
      | (c, .error err) => (c, .error (NewError (str "ReadResponseBodyErr") err))
      | (c, .ok resp) => (c, .ok resp)

/-- request.go `request.do`: write the header, write the body when there is
one, read the response. -/
def request.do (maxAlloc : Nat) (r : request) : Conn × Response :=
  match r.c.Write r.header with
  | .error err => (r.c, .error (NewError (str "WriteRequestHeaderErr") err))
  | .ok c =>
    match r.body with
    | some body =>
      match c.Write body with
      | .error err => (c, .error (NewError (str "WriteRequestBodyErr") err))
      | .ok c => request.readResponse maxAlloc { r with c := c }
    | none => request.readResponse maxAlloc { r with c := c }

/-! ## Protocol constants

The declarations of the protocol constants are not among the package's files.
The field widths and reply sizes are fixed by the specification; the opcode
values are not, and are taken as parameters. -/

/-- Modelled from the spec: the constant `FDFS_GROUP_NAME_MAX_LEN`, whose
declaration is missing; "`group_name` is a 16-byte left-aligned field". -/
def FDFS_GROUP_NAME_MAX_LEN : Nat := 16

/-- Modelled from the spec: the constant `FDFS_FILE_EXT_NAME_MAX_LEN`, whose
declaration is missing; "`file_ext_name` is 6 bytes". -/
def FDFS_FILE_EXT_NAME_MAX_LEN : Nat := 6

/-- Modelled from the spec: the constant `FDFS_FILE_PREFIX_MAX_LEN`, whose
declaration is missing; "`prefix_name` (for slave uploads) is 16 bytes". -/
def FDFS_FILE_PREFIX_MAX_LEN : Nat := 16

/-- Modelled from the spec: the constant `TRACKER_QUERY_STORAGE_STORE_BODY_LEN`,
whose declaration is missing; the query-upload-store reply body is 40 bytes. -/
def TRACKER_QUERY_STORAGE_STORE_BODY_LEN : Nat := 40

/-- Modelled from the spec: the constant `TRACKER_QUERY_STORAGE_FETCH_BODY_LEN`,
whose declaration is missing; the query-update and query-download reply bodies
are 39 bytes. -/
def TRACKER_QUERY_STORAGE_FETCH_BODY_LEN : Nat := 39

/-- The opcode constants of the FastDFS protocol used by the package; their
declarations are missing and their values are left open. -/
structure Proto where
  STORAGE_PROTO_CMD_UPLOAD_FILE : Byte
  STORAGE_PROTO_CMD_DELETE_FILE : Byte
  STORAGE_PROTO_CMD_DOWNLOAD_FILE : Byte
  STORAGE_PROTO_CMD_UPLOAD_APPENDER_FILE : Byte
  STORAGE_PROTO_CMD_APPEND_FILE : Byte
  TRACKER_PROTO_CMD_SERVICE_QUERY_STORE_WITH_GROUP_ONE : Byte
  TRACKER_PROTO_CMD_SERVICE_QUERY_FETCH_ONE : Byte
  TRACKER_PROTO_CMD_SERVICE_QUERY_UPDATE : Byte

/-- One assignment of opcodes (the values of the FastDFS protocol headers), for
concrete examples. -/
def exampleProto : Proto :=
  { STORAGE_PROTO_CMD_UPLOAD_FILE := 11
    STORAGE_PROTO_CMD_DELETE_FILE := 12
    STORAGE_PROTO_CMD_DOWNLOAD_FILE := 14
    STORAGE_PROTO_CMD_UPLOAD_APPENDER_FILE := 23
    STORAGE_PROTO_CMD_APPEND_FILE := 24
    TRACKER_PROTO_CMD_SERVICE_QUERY_STORE_WITH_GROUP_ONE := 104
    TRACKER_PROTO_CMD_SERVICE_QUERY_FETCH_ONE := 102
    TRACKER_PROTO_CMD_SERVICE_QUERY_UPDATE := 103 }

/-! ## storageconfig.go, storage.go -/

/-- The pool library's `pool.Config` (outside the repository): its fields as
plain numbers. -/
structure PoolConfig where
  CacheMethod : Nat
  IdleTimeout : Int
  WaitTimeout : Int
  IOTimeout : Int
  DialTimeout : Int
  InitCap : Int
  MaxCap : Int
deriving DecidableEq, Repr

/-- storageconfig.go `StorageConfig`. -/
structure StorageConfig where
  DownloadSizeLimit : Int
  PoolConfig : PoolConfig
deriving DecidableEq, Repr

/-- The pool library's `pool.Pool` as the storage and tracker clients use it:
`Get` yields a connection or an error. -/
structure Pool where
  Get : Except GoString Conn

/-- storage.go `Storage`. -/
structure Storage where
  address : GoString
  config : StorageConfig
  group : GoString
  pool : Pool

/-- storage.go `Storage.wrapError`: `nil` stays `nil`, otherwise the name gets
the qualifier `Storage_<group>:<address>`. -/
def Storage.wrapError (s : Storage) (err : Option Error) : Option Error :=
  match err with
  | none => none
  | some err => some (err.Wrap (str "Storage_" ++ s.group ++ str ":" ++ s.address))

/-- The length of a request's body slice (`0` for nil). -/
def request.bodyLen (r : request) : Nat :=
  match r.body with
  | some b => b.length
  | none => 0

/-- The `pkg_len` a request carries on the wire: bytes 0-7 of what it writes,
decoded as `header.read` decodes them. -/
def request.pkgLenWritten (r : request) : Int := toInt64 (Uint64 (r.header.take 8))

/-- The header's `pkg_len` is the exact number of bytes the request writes
after the 10-byte header: `len(header) + len(body) = 10 + pkgLen`. -/
def request.lenExact (r : request) : Prop :=
  ((r.header.length + r.bodyLen : Nat) : Int) = 10 + r.pkgLenWritten

/-- storage.go `Storage.Append`: the request it builds on `conn`. -/
def Storage.appendRequest (P : Proto) (_s : Storage) (conn : Conn) (b : Bytes)
    (filename : GoString) : request :=
  let h : header :=
    { pkgLen := int64 (16 + filename.length + b.length)
      cmd := P.STORAGE_PROTO_CMD_APPEND_FILE
      status := 0 }
  let buffer := h.buffer
  let buffer := binaryWriteInt64 buffer (int64 filename.length)
  let buffer := binaryWriteInt64 buffer (int64 b.length)
  let buffer := buffer ++ filename
  { c := conn, header := buffer, body := some b, respLimit := 130 }

/-- storage.go `Storage.Delete`: the request it builds on `conn`. -/
def Storage.deleteRequest (P : Proto) (s : Storage) (conn : Conn) (filename : GoString) :
    request :=
  let h : header :=
    { pkgLen := int64 (FDFS_GROUP_NAME_MAX_LEN + filename.length)
      cmd := P.STORAGE_PROTO_CMD_DELETE_FILE
      status := 0 }
  let buffer := h.buffer
  let buffer := buffer ++ fixString s.group FDFS_GROUP_NAME_MAX_LEN
  let buffer := buffer ++ filename
  { c := conn, header := buffer, body := none, respLimit := 0 }

/-- storage.go `Storage.downloadSizeLimit`. -/
def Storage.downloadSizeLimit (s : Storage) : Int := s.config.DownloadSizeLimit

/-- storage.go `Storage.Download`: the request it builds on `conn`. -/
def Storage.downloadRequest (P : Proto) (s : Storage) (conn : Conn) (filename : GoString)
    (offset length : Int) : request :=
  let h : header :=
    { pkgLen := int64 (32 + filename.length)
      cmd := P.STORAGE_PROTO_CMD_DOWNLOAD_FILE
      status := 0 }
  let buffer := h.buffer
  let buffer := binaryWriteInt64 buffer offset
  let buffer := binaryWriteInt64 buffer length
  let buffer := buffer ++ fixString s.group FDFS_GROUP_NAME_MAX_LEN
  let buffer := buffer ++ filename
  { c := conn, header := buffer, body := none, respLimit := s.downloadSizeLimit }

/-- storage.go `Storage.Upload`: the request it builds on `conn`. -/
def Storage.uploadRequest (P : Proto) (_s : Storage) (conn : Conn) (b : Bytes)
    (pathIndex : Byte) (ext : GoString) (allowAppend : Bool) : request :=
  let cmd := P.STORAGE_PROTO_CMD_UPLOAD_FILE
  let cmd := if allowAppend then P.STORAGE_PROTO_CMD_UPLOAD_APPENDER_FILE else cmd
  let h : header := { pkgLen := int64 (15 + b.length), cmd := cmd, status := 0 }
  let buffer := h.buffer
  let buffer := buffer ++ [pathIndex]
  let buffer := binaryWriteInt64 buffer (int64 b.length)
  let buffer := buffer ++ fixString ext FDFS_FILE_EXT_NAME_MAX_LEN
  { c := conn, header := buffer, body := some b, respLimit := 130 }

/-- storage.go `Storage.UploadSlave`: the request it builds on `conn`. -/
def Storage.uploadSlaveRequest (P : Proto) (_s : Storage) (conn : Conn) (b : Bytes)
    (master suffix ext : GoString) : request :=
  let h : header :=
    { pkgLen := int64 (38 + master.length + b.length)
      cmd := P.STORAGE_PROTO_CMD_UPLOAD_FILE
      status := 0 }
  let buffer := h.buffer
  let buffer := binaryWriteInt64 buffer (int64 master.length)
  let buffer := binaryWriteInt64 buffer (int64 b.length)
  let buffer := buffer ++ fixString suffix FDFS_FILE_PREFIX_MAX_LEN
  let buffer := buffer ++ fixString ext FDFS_FILE_EXT_NAME_MAX_LEN
  let buffer := buffer ++ master
  { c := conn, header := buffer, body := some b, respLimit := 130 }

/-! ## path/filepath (Go standard library, Unix)

`Storage.parseFid` builds the file id with `filepath.Join`, which joins with
the separator and then cleans the result. `Clean` follows the standard
library's loop: `path` is the unread part of the input (`path[r:]`), `out` the
bytes written so far (`buf[:w]`), `dotdot` the index where `..` must stop. -/

/-- The byte of `.`. -/
def DOT : Byte := 46

/-- The inner loop of the `..` case of `Clean`: from index `w`, step back while
`w > dotdot` and `out[w]` is not a separator. -/
def cleanBacktrack (out : Bytes) (dotdot : Nat) : Nat → Nat
  | 0 => 0
  | w + 1 =>
    if w + 1 > dotdot ∧ out.getD (w + 1) 0 ≠ SLASH then cleanBacktrack out dotdot w
    else w + 1

/-- The main loop of `Clean` (`for r < n`), one iteration per unit of fuel;
every iteration consumes at least one byte of `path`. -/
def cleanLoop (rooted : Bool) : Nat → Bytes → Bytes → Nat → Bytes
  | 0, _, out, _ => out
  | _ + 1, [], out, _ => out
  | fuel + 1, c :: rest, out, dotdot =>
    if c = SLASH then
      -- empty path element
      cleanLoop rooted fuel rest out dotdot
    else if c = DOT ∧ (rest = [] ∨ rest.head? = some SLASH) then
      -- . element
      cleanLoop rooted fuel rest out dotdot
    else if c = DOT ∧ rest.head? = some DOT ∧
        (rest.tail = [] ∨ rest.tail.head? = some SLASH) then
      -- .. element: remove to last separator
      if out.length > dotdot then
        cleanLoop rooted fuel rest.tail
          (out.take (cleanBacktrack out dotdot (out.length - 1))) dotdot
      else if rooted = false then
        let out := if out.length > 0 then out ++ [SLASH] else out
        let out := out ++ [DOT, DOT]
        cleanLoop rooted fuel rest.tail out out.length
      else
        cleanLoop rooted fuel rest.tail out dotdot
    else
      -- real path element: add slash if needed, copy element
      let out :=
        if (rooted = true ∧ out.length ≠ 1) ∨ (rooted = false ∧ out.length ≠ 0) then
          out ++ [SLASH]
        else out
      cleanLoop rooted fuel ((c :: rest).dropWhile (fun b => b ≠ SLASH))
        (out ++ (c :: rest).takeWhile (fun b => b ≠ SLASH)) dotdot

/-- Go's `filepath.Clean` (Unix). -/
def Clean (path : GoString) : GoString :=
  if path = [] then str "."
  else
    let rooted : Bool := decide (path.head? = some SLASH)
    let out :=
      if rooted then cleanLoop rooted path.length path.tail [SLASH] 1
      else cleanLoop rooted path.length path [] 0
    if out.length = 0 then str "." else out

/-- Go's `filepath.Join` (Unix) of two elements: leading empty elements are
skipped, the others are joined with the separator and cleaned. -/
def filepathJoin (a b : GoString) : GoString :=
  if a ≠ [] then Clean (a ++ [SLASH] ++ b)
  else if b ≠ [] then Clean b
  else []

/-- storage.go `Storage.parseFid`: the returned pair (file id, error). -/
def Storage.parseFid (s : Storage) (recv : Bytes) : GoString × Option Error :=
  if recv.length < FDFS_GROUP_NAME_MAX_LEN then
    ([], s.wrapError (some (unexpectedPkgLenErr recv.length FDFS_GROUP_NAME_MAX_LEN)))
  else
    let group := stripString (recv.take FDFS_GROUP_NAME_MAX_LEN)
    let name := recv.drop FDFS_GROUP_NAME_MAX_LEN
    (filepathJoin group name, none)

/-- storage.go `Storage.Upload`: the connection it used (if it got one), as it
is when the deferred `Close` hands it back, and the returned pair (file id,
error), `none` when the method does not return. -/
def Storage.Upload (P : Proto) (maxAlloc : Nat) (s : Storage) (b : Bytes) (pathIndex : Byte)
    (ext : GoString) (allowAppend : Bool) : Option Conn × Option (GoString × Option Error) :=
  match s.pool.Get with
  | .error e => (none, some ([], s.wrapError (some (getConnErr e))))
  | .ok conn =>
    match (s.uploadRequest P conn b pathIndex ext allowAppend).do maxAlloc with
    | (conn, .error err) => (some conn, some ([], s.wrapError (some err)))
    | (conn, .ok recv) => (some conn, some (s.parseFid recv))
    | (conn, .panic) => (some conn, none)

/-! ## tracker.go -/

/-- tracker.go `Tracker`. -/
structure Tracker where
  address : GoString
  pool : Pool

/-- tracker.go `Tracker.wrapError`. -/
def Tracker.wrapError (t : Tracker) (err : Option Error) : Option Error :=
  match err with
  | none => none
  | some err => some (err.Wrap (str "Tracker:" ++ t.address))

/-- tracker.go `Tracker.QueryUploadStorage`: the request it builds on `conn`. -/
def Tracker.queryUploadStorageRequest (P : Proto) (_t : Tracker) (conn : Conn)
    (group : GoString) : request :=
  let h : header :=
    { pkgLen := int64 FDFS_GROUP_NAME_MAX_LEN
      cmd := P.TRACKER_PROTO_CMD_SERVICE_QUERY_STORE_WITH_GROUP_ONE
      status := 0 }
  let buffer := h.buffer
  let buffer := buffer ++ fixString group FDFS_GROUP_NAME_MAX_LEN
  { c := conn, header := buffer, body := none, respLimit := 0 }

/-- tracker.go `Tracker.queryFileStorage`: the request it builds on `conn`. -/
def Tracker.queryFileStorageRequest (_t : Tracker) (conn : Conn) (group filename : GoString)
    (cmd : Byte) : request :=
  let h : header :=
    { pkgLen := int64 (FDFS_GROUP_NAME_MAX_LEN + filename.length), cmd := cmd, status := 0 }
  let buffer := h.buffer
  let buffer := buffer ++ fixString group FDFS_GROUP_NAME_MAX_LEN
  let buffer := buffer ++ filename
  { c := conn, header := buffer, body := none, respLimit := 0 }

/-- tracker.go `Tracker.QueryUpdateStorage`: the request it builds on `conn`. -/
def Tracker.queryUpdateStorageRequest (P : Proto) (t : Tracker) (conn : Conn)
    (group filename : GoString) : request :=
  t.queryFileStorageRequest conn group filename P.TRACKER_PROTO_CMD_SERVICE_QUERY_UPDATE

/-- tracker.go `Tracker.QueryDownloadStorage`: the request it builds on `conn`. -/
def Tracker.queryDownloadStorageRequest (P : Proto) (t : Tracker) (conn : Conn)
    (group filename : GoString) : request :=
  t.queryFileStorageRequest conn group filename P.TRACKER_PROTO_CMD_SERVICE_QUERY_FETCH_ONE

/-- tracker.go `TrackerStoreInfo`. -/
structure TrackerStoreInfo where
  Address : GoString
  Group : GoString
  PathIndex : Byte
deriving DecidableEq, Repr

/-- tracker.go `TrackerStoreInfo.cast`: the info after the call and the returned
error (`none` for `nil`). -/
def TrackerStoreInfo.cast (tsi : TrackerStoreInfo) (recv : Bytes) ( containPath : Bool) :
    TrackerStoreInfo × Option Error :=
  let checked : Except Error TrackerStoreInfo :=
    if containPath then
      if recv.length ≠ TRACKER_QUERY_STORAGE_STORE_BODY_LEN then
        .error (unexpectedPkgLenErr recv.length TRACKER_QUERY_STORAGE_STORE_BODY_LEN)
      else .ok { tsi with PathIndex := recv.getD 39 0 }
    else
      if recv.length ≠ TRACKER_QUERY_STORAGE_FETCH_BODY_LEN then
        .error (unexpectedPkgLenErr recv.length TRACKER_QUERY_STORAGE_FETCH_BODY_LEN)
      else .ok tsi
  match checked with
  | .error err => (tsi, some err)
  | .ok tsi =>
    let tsi := { tsi with Group := stripString (recv.take 16) }
    let ip := stripString ((recv.drop 16).take 15)
    let port := Uint64 ((recv.drop 31).take 8)
    let tsi := { tsi with Address := ip ++ str ":" ++ formatUint port }
    (tsi, none)

/-! ## The pool library, the random source and the runtime

`github.com/giantpoplar/pool`, `math/rand` and the allocator are outside the
repository; what the package takes from them is a parameter. -/

/-- The environment of the package: the pool library's `Config.Merge` (the
configuration it returns), `NewBlockingPool`, `Pool.Update`, the constants
`pool.FIFO` and `pool.FILO`, the number `rand.Intn` draws, and the largest
length `make` can allocate. -/
structure Env where
  Merge : PoolConfig → PoolConfig → PoolConfig
  NewBlockingPool : GoString → PoolConfig → Except GoString Pool
  Update : Pool → PoolConfig → Pool
  FIFO : Nat
  FILO : Nat
  rnd : Nat
  maxAlloc : Nat

/-- Go's `time.Second` as a `time.Duration` (nanoseconds). -/
def Second : Int := 1000000000

/-- error.go `createPoolErr`. -/
def createPoolErr (err : GoString) : Error := NewError (str "CreatePoolErr") err

/-! ## storageconfig.go, trackerconfig.go -/

/-- storageconfig.go `defaultStorageConfig`. -/
def defaultStorageConfig (E : Env) : StorageConfig :=
  { DownloadSizeLimit := 128 * 1024 * 1024
    PoolConfig :=
      { CacheMethod := E.FILO
        IdleTimeout := 100 * Second
        WaitTimeout := 3 * Second
        IOTimeout := 30 * Second
        DialTimeout := 30 * Second
        InitCap := 1
        MaxCap := 3 } }

/-- storageconfig.go `StorageConfig.merge`. -/
def StorageConfig.merge (E : Env) (sc new : StorageConfig) : StorageConfig :=
  let result := sc
  let result :=
    if new.DownloadSizeLimit > 0 then
      { result with DownloadSizeLimit := new.DownloadSizeLimit }
    else result
  { result with PoolConfig := E.Merge result.PoolConfig new.PoolConfig }

/-- trackerconfig.go `TrackerConfig`. -/
structure TrackerConfig where
  PoolConfig : PoolConfig
deriving DecidableEq, Repr

/-! ## storage.go: construction, reconfiguration, operations

`Storage.mtx` guards `config.DownloadSizeLimit`; each of its acquisitions is
released before the method returns, and it is left out. -/

/-- The zero value of the `pool` field, before `NewStorage` sets it. -/
def nilPool : Pool := ⟨.error (str "nil pool")⟩

/-- storage.go `NewStorage`: the returned pair (storage, error). -/
def NewStorage (E : Env) (address group : GoString) (config : StorageConfig) :
    Option Storage × Option Error :=
  let s : Storage :=
    { address := address
      group := group
      config := (defaultStorageConfig E).merge E config
      pool := nilPool }
  match E.NewBlockingPool address s.config.PoolConfig with
  | .error err => (none, s.wrapError (some (createPoolErr err)))
  | .ok p => (some { s with pool := p }, none)

/-- storage.go `Storage.setDownloadSizeLimit`. -/
def Storage.setDownloadSizeLimit (s : Storage) (limit : Int) : Storage :=
  { s with config := { s.config with DownloadSizeLimit := limit } }

/-- storage.go `Storage.Update`. -/
def Storage.Update (E : Env) (s : Storage) (config : StorageConfig) : Storage :=
  let s :=
    if config.DownloadSizeLimit > 0 then s.setDownloadSizeLimit config.DownloadSizeLimit
    else s
  { s with pool := E.Update s.pool config.PoolConfig }

/-- storage.go `Storage.Append`: the connection used and the returned error,
`none` when the method does not return. -/
def Storage.Append (P : Proto) (maxAlloc : Nat) (s : Storage) (b : Bytes)
    (filename : GoString) : Option Conn × Option (Option Error) :=
  match s.pool.Get with
  | .error e => (none, some (s.wrapError (some (getConnErr e))))
  | .ok conn =>
    match (s.appendRequest P conn b filename).do maxAlloc with
    | (conn, .error err) => (some conn, some (s.wrapError (some err)))
    | (conn, .ok _) => (some conn, some (s.wrapError none))
    | (conn, .panic) => (some conn, none)

/-- storage.go `Storage.Delete`: the connection used and the returned error,
`none` when the method does not return. -/
def Storage.Delete (P : Proto) (maxAlloc : Nat) (s : Storage) (filename : GoString) :
    Option Conn × Option (Option Error) :=
  match s.pool.Get with
  | .error e => (none, some (s.wrapError (some (getConnErr e))))
  | .ok conn =>
    match (s.deleteRequest P conn filename).do maxAlloc with
    | (conn, .error err) => (some conn, some (s.wrapError (some err)))
    | (conn, .ok _) => (some conn, some (s.wrapError none))
    | (conn, .panic) => (some conn, none)

/-- storage.go `Storage.Download`: the connection used and the returned pair
(bytes, error), `none` when the method does not return. -/
def Storage.Download (P : Proto) (maxAlloc : Nat) (s : Storage) (filename : GoString)
    (offset length : Int) : Option Conn × Option (Bytes × Option Error) :=
  match s.pool.Get with
  | .error e => (none, some ([], s.wrapError (some (getConnErr e))))
  | .ok conn =>
    match (s.downloadRequest P conn filename offset length).do maxAlloc with
    | (conn, .error err) => (some conn, some ([], s.wrapError (some err)))
    | (conn, .ok recv) => (some conn, some (recv, s.wrapError none))
    | (conn, .panic) => (some conn, none)

/-- storage.go `Storage.UploadSlave`: the connection used and the returned pair
(file id, error), `none` when the method does not return. -/
def Storage.UploadSlave (P : Proto) (maxAlloc : Nat) (s : Storage) (b : Bytes)
    (master suffix ext : GoString) : Option Conn × Option (GoString × Option Error) :=
  match s.pool.Get with
  | .error e => (none, some ([], s.wrapError (some (getConnErr e))))
  | .ok conn =>
    match (s.uploadSlaveRequest P conn b master suffix ext).do maxAlloc with
    | (conn, .error err) => (some conn, some ([], s.wrapError (some err)))
    | (conn, .ok recv) => (some conn, some (s.parseFid recv))
    | (conn, .panic) => (some conn, none)

/-! ## tracker.go: the queries -/

/-- tracker.go `Tracker.QueryUploadStorage`: the connection used and the
returned pair (info, error), `none` when the method does not return. -/
def Tracker.QueryUploadStorage (P : Proto) (maxAlloc : Nat) (t : Tracker) (group : GoString) :
    Option Conn × Option (Option TrackerStoreInfo × Option Error) :=
  match t.pool.Get with
  | .error e => (none, some (none, t.wrapError (some (getConnErr e))))
  | .ok conn =>
    match (t.queryUploadStorageRequest P conn group).do maxAlloc with
    | (conn, .error err) => (some conn, some (none, some err))
    | (conn, .panic) => (some conn, none)
    | (conn, .ok recv) =>
      match TrackerStoreInfo.cast ⟨[], [], 0⟩ recv true with
      | (_, some err) => (some conn, some (none, t.wrapError (some err)))
      | (info, none) => (some conn, some (some info, none))

/-- tracker.go `Tracker.queryFileStorage`: the connection used and the returned
pair (info, error), `none` when the method does not return. -/
def Tracker.queryFileStorage (maxAlloc : Nat) (t : Tracker) (group filename : GoString)
    (cmd : Byte) : Option Conn × Option (Option TrackerStoreInfo × Option Error) :=
  match t.pool.Get with
  | .error e => (none, some (none, t.wrapError (some (getConnErr e))))
  | .ok conn =>
    match (t.queryFileStorageRequest conn group filename cmd).do maxAlloc with
    | (conn, .error err) => (some conn, some (none, some err))
    | (conn, .panic) => (some conn, none)
    | (conn, .ok recv) =>
      match TrackerStoreInfo.cast ⟨[], [], 0⟩ recv false with
      | (_, some err) => (some conn, some (none, t.wrapError (some err)))
      | (info, none) => (some conn, some (some info, none))

/-- tracker.go `Tracker.QueryUpdateStorage`. -/
def Tracker.QueryUpdateStorage (P : Proto) (maxAlloc : Nat) (t : Tracker)
    (group filename : GoString) :
    Option Conn × Option (Option TrackerStoreInfo × Option Error) :=
  t.queryFileStorage maxAlloc group filename P.TRACKER_PROTO_CMD_SERVICE_QUERY_UPDATE

/-- tracker.go `Tracker.QueryDownloadStorage`. -/
def Tracker.QueryDownloadStorage (P : Proto) (maxAlloc : Nat) (t : Tracker)
    (group filename : GoString) :
    Option Conn × Option (Option TrackerStoreInfo × Option Error) :=
  t.queryFileStorage maxAlloc group filename P.TRACKER_PROTO_CMD_SERVICE_QUERY_FETCH_ONE

/-! ## The reader-writer lock

A `sync.RWMutex` as a count of read holds and a write-hold flag. A lock
operation yields `none` when it is not granted, that is, when its caller does
not get past it. The methods take the four lock calls as a parameter, and
`rwLocks` is the mutex itself. -/

/-- The state of a `sync.RWMutex`. -/
structure RWMutex where
  readers : Nat
  writer : Bool
deriving DecidableEq, Repr

/-- `RLock`: granted unless a writer holds the mutex. -/
def RWMutex.RLock (m : RWMutex) : Option RWMutex :=
  if m.writer then none else some { m with readers := m.readers + 1 }

/-- `RUnlock`: gives back one read hold (a fatal error without one). -/
def RWMutex.RUnlock (m : RWMutex) : Option RWMutex :=
  if m.readers = 0 then none else some { m with readers := m.readers - 1 }

/-- `Lock`: granted only when nobody holds the mutex. -/
def RWMutex.Lock (m : RWMutex) : Option RWMutex :=
  if m.writer = true ∨ m.readers ≠ 0 then none else some { m with writer := true }

/-- `Unlock`: gives back the write hold (a fatal error without it). -/
def RWMutex.Unlock (m : RWMutex) : Option RWMutex :=
  if m.writer then some { m with writer := false } else none

/-- The four lock calls of a mutex. -/
structure Locks where
  RLock : RWMutex → Option RWMutex
  RUnlock : RWMutex → Option RWMutex
  Lock : RWMutex → Option RWMutex
  Unlock : RWMutex → Option RWMutex

/-- The lock calls as `sync.RWMutex` performs them. -/
def rwLocks : Locks := ⟨RWMutex.RLock, RWMutex.RUnlock, RWMutex.Lock, RWMutex.Unlock⟩

/-! ## storagegroup.go -/

/-- A Go `map[string]V`. -/
abbrev GoMap (V : Type) := GoString → Option V

/-- The map assignment `m[k] = v`. -/
def GoMap.store {V : Type} (m : GoMap V) (k : GoString) (v : V) : GoMap V :=
  fun key => if key = k then some v else m key

/-- storagegroup.go `StorageGroup`. -/
structure StorageGroup where
  groupName : GoString
  base : StorageConfig
  storageMap : GoMap Storage
  mtx : RWMutex

/-- storagegroup.go `NewStorageGroup`. -/
def NewStorageGroup (groupName : GoString) (base : StorageConfig) : StorageGroup :=
  { base := base, groupName := groupName, storageMap := fun _ => none, mtx := ⟨0, false⟩ }

/-- storagegroup.go `StorageGroup.Add`: `Lock`, deferred `Unlock`, the map
assignment. -/
def StorageGroup.Add (L : Locks) (sg : StorageGroup) (s : Storage) : Option StorageGroup :=
  match L.Lock sg.mtx with
  | none => none
  | some m =>
    let sg := { sg with mtx := m }
    let sg := { sg with storageMap := sg.storageMap.store s.address s }
    match L.Unlock sg.mtx with
    | none => none
    | some m => some { sg with mtx := m }

/-- storagegroup.go `StorageGroup.BaseConfig`: `RLock`, then the deferred call,
which is `RLock` again, runs when `sg.base` is returned. -/
def StorageGroup.BaseConfig (L : Locks) (sg : StorageGroup) :
    Option (StorageGroup × StorageConfig) :=
  match L.RLock sg.mtx with
  | none => none
  | some m =>
    let sg := { sg with mtx := m }
    let result := sg.base
    match L.RLock sg.mtx with
    | none => none
    | some m => some ({ sg with mtx := m }, result)

/-- storagegroup.go `StorageGroup.Storage`: `RLock`, deferred `RUnlock`, the map
lookup. -/
def StorageGroup.Storage (L : Locks) (sg : StorageGroup) (addr : GoString) :
    Option (StorageGroup × Option Fdfs.Storage × Bool) :=
  match L.RLock sg.mtx with
  | none => none
  | some m =>
    let sg := { sg with mtx := m }
    let result : Option Fdfs.Storage × Bool :=
      match sg.storageMap addr with
      | none => (none, false)
      | some s => (some s, true)
    match L.RUnlock sg.mtx with
    | none => none
    | some m => some ({ sg with mtx := m }, result)

/-- storagegroup.go `StorageGroup.Update`: under the read lock every storage
of the map is updated, then under the write lock the base config is set. -/
def StorageGroup.Update (L : Locks) (E : Env) (sg : StorageGroup) (config : StorageConfig) :
    Option StorageGroup :=
  match L.RLock sg.mtx with
  | none => none
  | some m =>
    let sg := { sg with mtx := m }
    let sg := { sg with storageMap := fun a => (sg.storageMap a).map (fun s => Fdfs.Storage.Update E s config) }
    match L.RUnlock sg.mtx with
    | none => none
    | some m =>
      let sg := { sg with mtx := m }
      match L.Lock sg.mtx with
      | none => none
      | some m =>
        let sg := { sg with mtx := m }
        let sg := { sg with base := config }
        match L.Unlock sg.mtx with
        | none => none
        | some m => some { sg with mtx := m }

/-! ## cluster.go

A method yields `none` when it does not return: a lock call is not granted, or
it panics (an empty tracker list, a nil dereference, a `make` that fails).
`Cluster.mtx` guards
`trackerPeers`; each of its acquisitions is released before the method
returns, and it is left out. -/

/-- cluster.go `Cluster`. `storageGroups` is the `sync.Map` from group name to
`*StorageGroup`; a pointer is the index of its object in `objects`, the
`StorageGroup` objects allocated so far. -/
structure Cluster where
  name : GoString
  trackerBaseConfig : TrackerConfig
  storageBaseConfig : StorageConfig
  storageGroups : GoMap Nat
  objects : List StorageGroup
  trackerPeers : List Tracker

/-- cluster.go `New`. -/
def New (name : GoString) : Cluster :=
  { name := name
    trackerBaseConfig := ⟨⟨0, 0, 0, 0, 0, 0, 0⟩⟩
    storageBaseConfig := ⟨0, ⟨0, 0, 0, 0, 0, 0, 0⟩⟩
    storageGroups := fun _ => none
    objects := []
    trackerPeers := [] }

/-- The object a `*StorageGroup` points to. -/
def Cluster.deref (c : Cluster) (sg : Nat) : Option StorageGroup := c.objects.get? sg

/-- The object behind the pointer `sg` after a method changed it. -/
def Cluster.assign (c : Cluster) (sg : Nat) (obj : StorageGroup) : Cluster :=
  { c with objects := c.objects.set sg obj }

/-- The allocation `&StorageGroup{...}` of `NewStorageGroup`: the object is
placed at a fresh address, which is returned. -/
def Cluster.alloc (c : Cluster) (obj : StorageGroup) : Cluster × Nat :=
  ({ c with objects := c.objects ++ [obj] }, c.objects.length)

/-- cluster.go `Cluster.wrapError`. -/
def Cluster.wrapError (c : Cluster) (err : Option Error) : Option Error :=
  match err with
  | none => none
  | some err => some (err.Wrap c.name)

/-- The loop of Go's `strings.SplitN` for a one-byte separator: at most `k`
more cuts, then the remainder. -/
def splitLoop (sep : Byte) : Nat → GoString → List GoString
  | 0, s => [s]
  | k + 1, s =>
    match IndexByte s sep with
    | none => [s]
    | some m => s.take m :: splitLoop sep k (s.drop (m + 1))

/-- Go's `strings.SplitN(s, sep, n)` for a one-byte separator and `n ≥ 0`. -/
def SplitN (s : GoString) (sep : Byte) (n : Nat) : List GoString :=
  if n = 0 then []
  else
    let n := if n > s.length + 1 then s.length + 1 else n
    splitLoop sep (n - 1) s

/-- cluster.go `Cluster.splitFid`: the returned triple (group, file name,
error). -/
def Cluster.splitFid (c : Cluster) (fid : GoString) : GoString × GoString × Option Error :=
  let s := SplitN fid SLASH 2
  if s.length < 2 then ([], [], c.wrapError (some (wrongFidErr fid)))
  else (s.getD 0 [], s.getD 1 [], none)

/-- cluster.go `Cluster.AddTracker`. -/
def Cluster.AddTracker (c : Cluster) (t : Tracker) : Cluster :=
  { c with trackerPeers := c.trackerPeers ++ [t] }

/-- cluster.go `Cluster.AddStorageGroup`: the pointer is stored under the
group name of its object. -/
def Cluster.AddStorageGroup (c : Cluster) (sg : Nat) : Option Cluster :=
  match c.deref sg with
  | none => none
  | some obj => some { c with storageGroups := c.storageGroups.store obj.groupName sg }

/-- cluster.go `Cluster.StorageGroup`: the pointer stored under the name. -/
def Cluster.StorageGroup (c : Cluster) (group : GoString) : Option Nat × Bool :=
  match c.storageGroups group with
  | none => (none, false)
  | some v => (some v, true)

/-- cluster.go `Cluster.Storage`: the cluster afterwards and the returned pair
(storage, error). -/
def Cluster.Storage (L : Locks) (E : Env) (c : Cluster) (info : TrackerStoreInfo) :
    Option (Cluster × Option Fdfs.Storage × Option Error) :=
  let found : Option (Cluster × Nat) :=
    match c.StorageGroup info.Group with
    | (some sg, true) => some (c, sg)
    | _ =>
      match c.alloc (NewStorageGroup info.Group c.storageBaseConfig) with
      | (c, sg) =>
        match c.AddStorageGroup sg with
        | none => none
        | some c => some (c, sg)
  match found with
  | none => none
  | some (c, sg) =>
    match c.deref sg with
    | none => none
    | some obj =>
      match obj.Storage L info.Address with
      | none => none
      | some (obj, some s, true) => some (c.assign sg obj, some s, none)
      | some (obj, _, _) =>
        match obj.BaseConfig L with
        | none => none
        | some (obj, base) =>
          match NewStorage E info.Address info.Group base with
          | (some s, none) =>
            match obj.Add L s with
            | none => none
            | some obj => some (c.assign sg obj, some s, none)
          | (_, err) => some (c.assign sg obj, none, c.wrapError err)

/-- cluster.go `Cluster.Tracker`: `c.trackerPeers[rand.Intn(len(c.trackerPeers))]`;
`none` on an empty list, where `rand.Intn` panics. -/
def Cluster.Tracker (E : Env) (c : Cluster) : Option Fdfs.Tracker :=
  c.trackerPeers.get? (E.rnd % c.trackerPeers.length)

/-- cluster.go `Cluster.UpdateStorageGroup`. -/
def Cluster.UpdateStorageGroup (L : Locks) (E : Env) (c : Cluster) (group : GoString)
    (config : StorageConfig) : Option Cluster :=
  match c.StorageGroup group with
  | (some sg, true) =>
    match c.deref sg with
    | none => none
    | some obj =>
      match obj.Update L E config with
      | none => none
      | some obj => some (c.assign sg obj)
  | _ =>
    match c.alloc (NewStorageGroup group config) with
    | (c, sg) => c.AddStorageGroup sg

/-- A Go `error` interface value: `nil`, or a dynamic type with its value. The
only dynamic type the package puts into it is `*Error`, whose value is a
pointer, nil (`none`) or not. -/
inductive GoError where
  | nil : GoError
  | errorPtr (p : Option Error) : GoError
deriving DecidableEq, Repr

/-- The comparison `err == nil` on an interface value. -/
def GoError.isNil : GoError → Bool
  | .nil => true
  | .errorPtr _ => false

/-- cluster.go `Cluster.Delete`: the cluster afterwards and the returned
`*Error`. -/
def Cluster.Delete (P : Proto) (L : Locks) (E : Env) (c : Cluster) (fid : GoString) :
    Option (Cluster × Option Error) :=
  match c.splitFid fid with
  | (_, _, some err) => some (c, some err)
  | (group, filename, none) =>
    match c.Tracker E with
    | none => none
    | some t =>
      match (t.QueryUpdateStorage P E.maxAlloc group filename).2 with
      | none => none
      | some (_, some err) => some (c, c.wrapError (some err))
      | some (none, none) => none
      | some (some info, none) =>
        match c.Storage L E info with
        | none => none
        | some (c, _, some err) => some (c, some err)
        | some (_, none, none) => none
        | some (c, some s, none) =>
          match (s.Delete P E.maxAlloc filename).2 with
          | none => none
          | some err => some (c, err)

/-- cluster.go `Cluster.Append`: the cluster afterwards and the returned
`error`; every `*Error` it returns is converted to the interface. -/
def Cluster.Append (P : Proto) (L : Locks) (E : Env) (c : Cluster) (b : Bytes)
    (fid : GoString) : Option (Cluster × GoError) :=
  match c.splitFid fid with
  | (_, _, some err) => some (c, .errorPtr (some err))
  | (group, filename, none) =>
    match c.Tracker E with
    | none => none
    | some t =>
      match (t.QueryUpdateStorage P E.maxAlloc group filename).2 with
      | none => none
      | some (_, some err) => some (c, .errorPtr (c.wrapError (some err)))
      | some (none, none) => none
      | some (some storeInfo, none) =>
        match c.Storage L E storeInfo with
        | none => none
        | some (c, _, some err) => some (c, .errorPtr (some err))
        | some (_, none, none) => none
        | some (c, some s, none) =>
          match (s.Append P E.maxAlloc b filename).2 with
          | none => none
          | some err => some (c, .errorPtr err)

/-- cluster.go `Cluster.DownloadFromOffset`: the cluster afterwards and the
returned pair (bytes, `*Error`). -/
def Cluster.DownloadFromOffset (P : Proto) (L : Locks) (E : Env) (c : Cluster)
    (fid : GoString) (offset length : Int) : Option (Cluster × Bytes × Option Error) :=
  match c.splitFid fid with
  | (_, _, some err) => some (c, [], some err)
  | (group, filename, none) =>
    match c.Tracker E with
    | none => none
    | some t =>
      match (t.QueryDownloadStorage P E.maxAlloc group filename).2 with
      | none => none
      | some (_, some err) => some (c, [], c.wrapError (some err))
      | some (none, none) => none
      | some (some storeInfo, none) =>
        match c.Storage L E storeInfo with
        | none => none
        | some (c, _, some err) => some (c, [], some err)
        | some (_, none, none) => none
        | some (c, some s, none) =>
          match (s.Download P E.maxAlloc filename offset length).2 with
          | none => none
          | some (_, some err) => some (c, [], c.wrapError (some err))
          | some (b, none) => some (c, b, none)

/-- cluster.go `Cluster.Download`: `DownloadFromOffset(fid, 0, 0)`, its
`*Error` converted to `error`. -/
def Cluster.Download (P : Proto) (L : Locks) (E : Env) (c : Cluster) (fid : GoString) :
    Option (Cluster × Bytes × GoError) :=
  match c.DownloadFromOffset P L E fid 0 0 with
  | none => none
  | some (c, b, err) => some (c, b, .errorPtr err)

/-- cluster.go `Cluster.upload`: the cluster afterwards and the returned pair
(file id, `*Error`). -/
def Cluster.upload (P : Proto) (L : Locks) (E : Env) (c : Cluster) (b : Bytes)
    (group ext : GoString) (allowAppend : Bool) : Option (Cluster × GoString × Option Error) :=
  match c.Tracker E with
  | none => none
  | some t =>
    match (t.QueryUploadStorage P E.maxAlloc group).2 with
    | none => none
    | some (_, some err) => some (c, [], c.wrapError (some err))
    | some (none, none) => none
    | some (some info, none) =>
      match c.Storage L E info with
      | none => none
      | some (c, _, some err) => some (c, [], some err)
      | some (_, none, none) => none
      | some (c, some s, none) =>
        match (s.Upload P E.maxAlloc b info.PathIndex ext allowAppend).2 with
        | none => none
        | some (fid, err) => some (c, fid, c.wrapError err)

/-- cluster.go `Cluster.Upload`: `c.upload(b, group, ext, false)`, its `*Error`
converted to `error`. -/
def Cluster.Upload (P : Proto) (L : Locks) (E : Env) (c : Cluster) (b : Bytes)
    (group ext : GoString) : Option (Cluster × GoString × GoError) :=
  match c.upload P L E b group ext false with
  | none => none
  | some (c, fid, err) => some (c, fid, .errorPtr err)

/-- cluster.go `Cluster.UploadAppender`: `c.upload(b, group, ext, true)`, its
`*Error` converted to `error`. -/
def Cluster.UploadAppender (P : Proto) (L : Locks) (E : Env) (c : Cluster) (b : Bytes)
    (group ext : GoString) : Option (Cluster × GoString × GoError) :=
  match c.upload P L E b group ext true with
  | none => none
  | some (c, fid, err) => some (c, fid, .errorPtr err)

/-- cluster.go `Cluster.UploadSlave`: the cluster afterwards and the returned
pair (file id, `error`); every `*Error` it returns is converted to the
interface. -/
def Cluster.UploadSlave (P : Proto) (L : Locks) (E : Env) (c : Cluster) (b : Bytes)
    (master suffix ext : GoString) : Option (Cluster × GoString × GoError) :=
  match c.splitFid master with
  | (_, _, some err) => some (c, [], .errorPtr (some err))
  | (group, filename, none) =>
    match c.Tracker E with
    | none => none
    | some t =>
      match (t.QueryUpdateStorage P E.maxAlloc group filename).2 with
      | none => none
      | some (_, some err) => some (c, [], .errorPtr (c.wrapError (some err)))
      | some (none, none) => none
      | some (some info, none) =>
        match c.Storage L E info with
        | none => none
        | some (c, _, some err) => some (c, [], .errorPtr (some err))
        | some (_, none, none) => none
        | some (c, some s, none) =>
          match (s.UploadSlave P E.maxAlloc b master suffix ext).2 with
          | none => none
          | some (fid, err) => some (c, fid, .errorPtr (c.wrapError err))

/-! ## client.go -/

/-- A `*cluster.Cluster` that is not nil: the address it holds and the cluster
it points to. -/
structure ClusterRef where
  addr : Nat
  target : Cluster

/-- A key of the `sync.Map` of clusters, an `interface{}` value: a string, or
a cluster pointer. Values of different dynamic types are different keys. -/
inductive MapKey where
  | string (s : GoString) : MapKey
  | clusterPtr (addr : Nat) : MapKey
deriving DecidableEq, Repr

/-- client.go `Client`: the `sync.Map` of clusters as its list of entries. -/
structure Client where
  clusters : List (MapKey × ClusterRef)

/-- `sync.Map.Store`. -/
def syncMapStore (m : List (MapKey × ClusterRef)) (key : MapKey) (value : ClusterRef) :
    List (MapKey × ClusterRef) :=
  (key, value) :: m.filter (fun e => e.1 ≠ key)

/-- `sync.Map.Load`. -/
def syncMapLoad (m : List (MapKey × ClusterRef)) (key : MapKey) : Option ClusterRef :=
  (m.find? (fun e => e.1 = key)).map (fun e => e.2)

/-- client.go `Client.AddCluster`: `c.clusters.Store(cluster, cluster)`. -/
def Client.AddCluster (c : Client) (cluster : Option ClusterRef) : Client :=
  match cluster with
  | none => c
  | some cluster => { c with clusters := syncMapStore c.clusters (.clusterPtr cluster.addr) cluster }

/-- client.go `Client.Cluster`: `c.clusters.Load(name)`. -/
def Client.Cluster (c : Client) (name : GoString) : Option ClusterRef × Bool :=
  match syncMapLoad c.clusters (.string name) with
  | none => (none, false)
  | some v => (some v, true)

/-- client.go `unknownClusterErr`. -/
def unknownClusterErr (name : GoString) : Error :=
  NewError (str "UnknownCluster") (str "cluster " ++ name ++ str " not exist")

/-- What a method did to the cluster behind the pointer `ref`. -/
def Client.setCluster (c : Client) (ref : ClusterRef) (target : Fdfs.Cluster) : Client :=
  { c with clusters :=
      c.clusters.map (fun e => if e.2.addr = ref.addr then (e.1, { e.2 with target := target })
        else e) }

/-- client.go `Client.Delete`: the client afterwards and the returned `error`. -/
def Client.Delete (P : Proto) (L : Locks) (E : Env) (c : Client) (clusterName fid : GoString) :
    Option (Client × GoError) :=
  match c.Cluster clusterName with
  | (some cluster, true) =>
    match cluster.target.Delete P L E fid with
    | none => none
    | some (target, err) => some (c.setCluster cluster target, .errorPtr err)
  | _ => some (c, .errorPtr (some (unknownClusterErr clusterName)))

/-- client.go `Client.Upload`: the client afterwards and the returned pair
(file id, `error`). -/
def Client.Upload (P : Proto) (L : Locks) (E : Env) (c : Client)
    (clusterName group ext : GoString) (b : Bytes) : Option (Client × GoString × GoError) :=
  match c.Cluster clusterName with
  | (some cluster, true) =>
    match cluster.target.Upload P L E b group ext with
    | none => none
    | some (target, fid, err) => some (c.setCluster cluster target, fid, err)
  | _ => some (c, [], .errorPtr (some (unknownClusterErr clusterName)))

/-! ## Concrete values for examples -/

/-- A fresh connection on which the peer will deliver `input`. -/
def connWith (input : Bytes) : Conn := ⟨input, [], false, none⟩

/-- A storage client of group `g1` whose pool hands out `conn`. -/
def storageWith (conn : Conn) : Storage :=
  { address := str "10.0.0.1:23000"
    config := ⟨1024, ⟨0, 0, 0, 0, 0, 1, 3⟩⟩
    group := str "g1"
    pool := ⟨.ok conn⟩ }

/-- A tracker client whose pool hands out `conn`. -/
def trackerWith (conn : Conn) : Tracker :=
  { address := str "10.0.0.2:22122", pool := ⟨.ok conn⟩ }

/-- The upload reply of the specification's scenario: `g1`, 14 NULs, then the
remote name. -/
def uploadReply : Bytes := str "g1" ++ List.replicate 14 NUL ++ str "M01/AB/CD/xyz.jpg"

/-- A query-upload-store reply: `g1`, `10.0.0.1`, port 23000, path index 3. -/
def storeReply : Bytes :=
  fixString (str "g1") 16 ++ fixString (str "10.0.0.1") 15 ++ PutUint64 23000 ++ [3]

/-- A query-update or query-download reply: `g1`, `10.0.0.1`, port 23000. -/
def fetchReply : Bytes :=
  fixString (str "g1") 16 ++ fixString (str "10.0.0.1") 15 ++ PutUint64 23000

/-- An environment whose pools hand out `conn`, whose `Config.Merge` keeps
the base configuration and whose `Pool.Update` changes nothing observable. -/
def envWith (conn : Conn) : Env :=
  { Merge := fun base _ => base
    NewBlockingPool := fun _ _ => .ok ⟨.ok conn⟩
    Update := fun p _ => p
    FIFO := 0
    FILO := 1
    rnd := 0
    maxAlloc := 2 ^ 48 }

/-! ## Specification-side notions -/

/-- The decimal rendering of a natural number: its base-10 digits, most
significant first, as ASCII; `0` is the single digit `0`. -/
def decimal (n : Nat) : GoString :=
  if n = 0 then [byteOf 48] else (Nat.digits 10 n).reverse.map (fun d => byteOf (48 + d))

/-- The value of a byte sequence read as a big-endian unsigned integer. -/
def bigEndian (b : Bytes) : Nat := b.foldl (fun acc x => acc * 256 + x.val) 0

/-- The group the topology holds under a name. -/
def Cluster.group (c : Cluster) (name : GoString) : Option Fdfs.StorageGroup :=
  (c.storageGroups name).bind c.deref

/-- The storage the topology holds for `(group, address)`. -/
def Cluster.lookup (c : Cluster) (group address : GoString) : Option Fdfs.Storage :=
  (c.group group).bind (fun sg => sg.storageMap address)

/-- The topology invariant of the specification: every storage lives under its
own address, in the group of its `group` field. -/
def Cluster.WF (c : Cluster) : Prop :=
  ∀ g sg, c.group g = some sg →
    ∀ a s, sg.storageMap a = some s → s.address = a ∧ s.group = g

/-- A cluster named `Cluster` with one tracker, whose pool hands out `tconn`,
and the group `g1` holding the storage at `10.0.0.1:23000`, whose pool hands
out `sconn`. -/
def clusterWith (tconn sconn : Conn) : Cluster :=
  { New (str "Cluster") with
    trackerPeers := [trackerWith tconn]
    storageGroups := GoMap.store (fun _ => none) (str "g1") 0
    objects :=
      [{ NewStorageGroup (str "g1") ⟨0, ⟨0, 0, 0, 0, 0, 0, 0⟩⟩ with
         storageMap :=
           GoMap.store (fun _ => none) (str "10.0.0.1:23000") (storageWith sconn) }] }

/-- The caller's sequence of exported calls
`sg := NewStorageGroup(group, base); sg.Add(s); c.AddStorageGroup(sg)`. -/
def Cluster.install (L : Locks) (c : Cluster) (group : GoString) (base : StorageConfig)
    (s : Fdfs.Storage) : Option Cluster :=
  match c.alloc (NewStorageGroup group base) with
  | (c, sg) =>
    match c.deref sg with
    | none => none
    | some obj =>
      match obj.Add L s with
      | none => none
      | some obj => (c.assign sg obj).AddStorageGroup sg

/-- A storage whose `group` field is `g2`, at `10.0.0.1:23000`. -/
def strayStorage : Storage :=
  { storageWith (connWith []) with group := str "g2" }

/-- A cluster whose group `g1` was given the storage `strayStorage`, of group
`g2`, through the exported `NewStorageGroup`, `StorageGroup.Add` and
`Cluster.AddStorageGroup`. -/
def strayCluster : Cluster :=
  { New (str "Cluster") with
    storageGroups := GoMap.store (fun _ => none) (str "g1") 0
    objects :=
      [{ NewStorageGroup (str "g1") ⟨0, ⟨0, 0, 0, 0, 0, 0, 0⟩⟩ with
         storageMap := GoMap.store (fun _ => none) (str "10.0.0.1:23000") strayStorage }] }

/-- The tracker's answer to a query-update or query-download: header and
39-byte body. -/
def fetchAnswer : Bytes := header.buffer ⟨39, 100, 0⟩ ++ fetchReply

/-- The tracker's answer to a query-upload-store: header and 40-byte body. -/
def storeAnswer : Bytes := header.buffer ⟨40, 100, 0⟩ ++ storeReply

/-- A client after a sequence of `AddCluster` calls on an empty registry. -/
def Client.addAll (adds : List (Option ClusterRef)) : Client :=
  adds.foldl Client.AddCluster ⟨[]⟩

/-- The spec's two's-complement bit pattern of a signed 64-bit value. -/
def twosComplement64 (v : Int) : Nat := if 0 ≤ v then v.toNat else (2 ^ 64 + v).toNat

/-- A path element that `Clean` keeps as it is: non-empty, without a
separator, and neither `.` nor `..`. -/
def IsElem (e : GoString) : Prop := e ≠ [] ∧ SLASH ∉ e ∧ e ≠ [DOT] ∧ e ≠ [DOT, DOT]

instance (e : GoString) : Decidable (IsElem e) := by
  unfold IsElem; exact inferInstance

/-- The elements `es`, each preceded by one separator: `/e1/e2/.../ek`. -/
def slashed : List GoString → GoString
  | [] => []
  | e :: es => SLASH :: e ++ slashed es

/-- A remote name in clean form: non-empty elements separated by single
separators, none of them `.` or `..`. -/
def IsCleanName (name : GoString) : Prop :=
  ∃ n ns, IsElem n ∧ (∀ x ∈ ns, IsElem x) ∧ name = n ++ slashed ns

/-! ## Lemmas: integers -/

theorem int64_of_inInt64 {v : Int} (h : InInt64 v) : int64 v = v := by
  unfold InInt64 at h
  unfold int64
  omega

theorem uint64_lt (v : Int) : uint64 v < 2 ^ 64 := by
  unfold uint64
  omega

theorem uint64_toInt64 (u : Nat) (h : u < 2 ^ 64) : uint64 (toInt64 u) = u := by
  unfold uint64 toInt64
  split <;> omega

theorem toInt64_uint64 {v : Int} (h : InInt64 v) : toInt64 (uint64 v) = v := by
  unfold InInt64 at h
  unfold uint64 toInt64
  split <;> omega

theorem Uint64_PutUint64 (v : Nat) (h : v < 2 ^ 64) : Uint64 (PutUint64 v) = v := by
  simp only [Uint64, PutUint64, List.getD_cons_zero, List.getD_cons_succ, byteOf]
  omega

theorem PutUint64_length (v : Nat) : (PutUint64 v).length = 8 := rfl

/-! ## Lemmas: fixed-width fields -/

theorem foldl_set_copy (s buff : Bytes) (l : Nat) (hl : l ≤ s.length) (hb : l ≤ buff.length) :
    (List.range l).foldl (fun buff i => buff.set i (s.getD i 0)) buff
      = s.take l ++ buff.drop l := by
  induction l with
  | zero => simp
  | succ l ih =>
    rw [List.range_succ, List.foldl_append, ih (by omega) (by omega)]
    simp only [List.foldl_cons, List.foldl_nil]
    apply List.ext_getElem
    · simp; omega
    · intro i h1 h2
      simp only [List.getElem_set, List.getElem_append, List.length_take, List.getElem_take,
        List.getElem_drop]
      have hm : min l s.length = l := by omega
      have hm' : min (l + 1) s.length = l + 1 := by omega
      simp only [hm, hm']
      by_cases hi : l = i
      · subst hi
        simp [List.getD_eq_getElem?_getD, List.getElem?_eq_getElem (show l < s.length by omega)]
      · simp only [hi, if_false]
        by_cases hlt : i < l
        · simp [hlt, show i < l + 1 by omega]
        · simp only [hlt, show ¬ i < l + 1 by omega, dite_false]
          congr 1
          omega

theorem foldl_set_zero (buff : Bytes) (l k : Nat) (hb : l + k ≤ buff.length) :
    (List.range' l k).foldl (fun buff i => buff.set i (0 : Byte)) buff
      = buff.take l ++ List.replicate k 0 ++ buff.drop (l + k) := by
  induction k generalizing buff l with
  | zero => simp
  | succ k ih =>
    rw [List.range'_succ, List.foldl_cons, ih _ _ (by simp; omega)]
    apply List.ext_getElem
    · simp; omega
    · intro i h1 h2
      simp only [List.getElem_append, List.length_take, List.getElem_take, List.length_set,
        List.getElem_set, List.getElem_drop, List.length_append, List.length_replicate,
        List.getElem_replicate]
      have hm : min (l + 1) buff.length = l + 1 := by omega
      have hm' : min l buff.length = l := by omega
      simp only [hm, hm']
      by_cases c1 : i < l
      · simp [c1, show i < l + 1 by omega, show i < l + 1 + k by omega,
          show i < l + (k + 1) by omega, show l ≠ i by omega]
      · by_cases c2 : i < l + 1 + k
        · by_cases c3 : i < l + 1
          · have hil : i = l := by omega
            subst hil
            simp [show i < i + (k + 1) by omega]
            intro h
            omega
          · simp [c1, c2, c3, show i < l + (k + 1) by omega]
        · simp only [c1, c2, show ¬ i < l + (k + 1) by omega, dite_false,
            show ¬ l = l + 1 + k + (i - (l + 1 + k)) by omega, if_false]
          congr 1
          omega

theorem fixString_eq (s : GoString) (w : Nat) :
    fixString s w = s.take w ++ List.replicate (w - s.length) NUL := by
  unfold fixString
  simp only []
  by_cases h : s.length > w
  · simp only [h, if_true]
    rw [foldl_set_copy s _ w (by omega) (by simp)]
    simp [show w - s.length = 0 by omega]
  · simp only [h, if_false]
    rw [foldl_set_copy s _ s.length (by omega) (by simp; omega)]
    rw [foldl_set_zero _ _ _ (by simp)]
    simp [NUL, List.take_of_length_le (show s.length ≤ w by omega)]

theorem IndexByte_none {s : GoString} {c : Byte} (h : IndexByte s c = none) : c ∉ s := by
  induction s with
  | nil => simp
  | cons b bs ih =>
    simp only [IndexByte] at h
    split at h
    · simp at h
    · rename_i hbc
      simp only [Option.map_eq_none'] at h
      simp only [List.mem_cons, not_or]
      exact ⟨fun e => hbc e.symm, ih h⟩

theorem stripString_eq (s : GoString) : stripString s = cutAtNul s := by
  unfold stripString cutAtNul
  induction s with
  | nil => simp [IndexByte]
  | cons b bs ih =>
    simp only [IndexByte]
    by_cases hb : b = NUL
    · simp [hb, List.takeWhile]
    · simp only [hb, if_false]
      cases hi : IndexByte bs NUL with
      | none =>
        rw [hi] at ih
        simp only [Option.map_none']
        rw [List.takeWhile_cons_of_pos (by simpa using hb), ← ih]
      | some i =>
        rw [hi] at ih
        simp only [Option.map_some']
        rw [List.takeWhile_cons_of_pos (by simpa using hb), ← ih]
        simp

theorem cutAtNul_append_nul (s t : GoString) :
    cutAtNul (s ++ NUL :: t) = cutAtNul s := by
  unfold cutAtNul
  induction s with
  | nil => simp [List.takeWhile]
  | cons b bs ih =>
    by_cases hb : b = NUL
    · simp [hb, List.takeWhile]
    · rw [List.cons_append, List.takeWhile_cons_of_pos (by simpa using hb),
        List.takeWhile_cons_of_pos (by simpa using hb), ih]

theorem cutAtNul_append_replicate (s : GoString) (k : Nat) :
    cutAtNul (s ++ List.replicate k NUL) = cutAtNul s := by
  cases k with
  | zero => simp
  | succ k => rw [List.replicate_succ, cutAtNul_append_nul]

theorem cutAtNul_of_not_mem {s : GoString} (h : NUL ∉ s) : cutAtNul s = s := by
  unfold cutAtNul
  rw [List.takeWhile_eq_self_iff]
  intro b hb
  simp only [ne_eq, decide_eq_true_eq]
  intro e
  exact h (e ▸ hb)

/-! ## Fixed-width fields: the claims -/

/-- C2: for every string `s` and width `w`, `fixString s w` is exactly `w`
bytes long, is the first `w` bytes of `s` when `len(s) ≥ w`, and is `s`
followed by `w - len(s)` NUL bytes otherwise; on the test inputs
`fixString("helloworld", 5) = "hello"` and `fixString("helloworld", 11)` is
`"helloworld"` plus one NUL. -/
theorem C2_fixString_exact :
    (∀ (s : GoString) (w : Nat),
      (fixString s w).length = w ∧
      (s.length ≥ w → fixString s w = s.take w) ∧
      (s.length < w → fixString s w = s ++ List.replicate (w - s.length) NUL)) ∧
    fixString (str "helloworld") 5 = str "hello" ∧
    fixString (str "helloworld") 11 = str "helloworld" ++ [NUL] := by
  refine ⟨fun s w => ⟨?_, ?_, ?_⟩, by decide, by decide⟩
  · rw [fixString_eq]
    simp only [List.length_append, List.length_take, List.length_replicate]
    omega
  · intro h
    rw [fixString_eq]
    simp [show w - s.length = 0 by omega]
  · intro h
    rw [fixString_eq, List.take_of_length_le (by omega)]

/-- Witness of C2 at `s = "jpg"`, `w = 6` (padding) and `w = 2` (truncation). -/
theorem C2_fixString_exact_witness :
    fixString (str "jpg") 6 = str "jpg" ++ [NUL, NUL, NUL] ∧
    fixString (str "jpg") 2 = str "jp" :=
  ⟨((C2_fixString_exact.1 (str "jpg") 6).2.2 (by decide)).trans (by decide),
   ((C2_fixString_exact.1 (str "jpg") 2).2.1 (by decide)).trans (by decide)⟩

/-- C3: decoding is the left inverse of fixed-width encoding up to the first
NUL. For every `s` and `w`, `stripString (fixString s w)` is the first
`min(len(s), w)` bytes of `s` cut at their first NUL; in particular it is `s`
itself when `s` has no NUL byte and `len(s) ≤ w`. -/
theorem C3_strip_fix_left_inverse :
    (∀ (s : GoString) (w : Nat),
      stripString (fixString s w) = cutAtNul (s.take (min s.length w))) ∧
    (∀ (s : GoString) (w : Nat), NUL ∉ s → s.length ≤ w →
      stripString (fixString s w) = s) := by
  have key : ∀ (s : GoString) (w : Nat),
      stripString (fixString s w) = cutAtNul (s.take (min s.length w)) := by
    intro s w
    rw [stripString_eq, fixString_eq, cutAtNul_append_replicate]
    congr 1
    by_cases h : s.length ≤ w
    · rw [Nat.min_eq_left h, List.take_of_length_le h, List.take_of_length_le (le_refl _)]
    · rw [Nat.min_eq_right (by omega)]
  refine ⟨key, fun s w hn hl => ?_⟩
  rw [key, Nat.min_eq_left hl, List.take_of_length_le (le_refl _), cutAtNul_of_not_mem hn]

/-- Witness of C3: `"g1"` in a 16-byte field decodes to `"g1"`, and a string
with an inner NUL decodes to the part before it. -/
theorem C3_strip_fix_left_inverse_witness :
    stripString (fixString (str "g1") 16) = str "g1" ∧
    stripString (fixString (str "ab" ++ [NUL] ++ str "cd") 4) = str "ab" :=
  ⟨C3_strip_fix_left_inverse.2 (str "g1") 16 (by decide) (by decide),
   (C3_strip_fix_left_inverse.1 (str "ab" ++ [NUL] ++ str "cd") 4).trans (by decide)⟩

/-! ## The header: layout and decoding -/

theorem ReadFull_append (c : Conn) (data rest : Bytes) (h : c.input = data ++ rest) :
    ReadFull c data.length = ({ c with input := rest }, .ok data) := by
  unfold ReadFull
  simp [h]

theorem header_buffer_eq (h : header) :
    h.buffer = PutUint64 (uint64 h.pkgLen) ++ [h.cmd, h.status] := by
  simp [header.buffer, binaryWriteInt64]

theorem header_read_eq (h0 : header) (c : Conn) (data rest : Bytes)
    (hd : data.length = 10) (hc : c.input = data ++ rest) :
    h0.read c =
      if toInt64 (Uint64 (data.take 8)) < 0 then
        ({ h0 with pkgLen := toInt64 (Uint64 (data.take 8)) }, { c with input := rest },
          some (str "wrong pkg length: " ++ formatInt (toInt64 (Uint64 (data.take 8)))))
      else if data.getD 9 0 ≠ 0 then
        (⟨toInt64 (Uint64 (data.take 8)), data.getD 8 0, data.getD 9 0⟩,
          { c with input := rest },
          some (header.statusCodeErr ⟨toInt64 (Uint64 (data.take 8)), data.getD 8 0,
            data.getD 9 0⟩))
      else
        (⟨toInt64 (Uint64 (data.take 8)), data.getD 8 0, data.getD 9 0⟩,
          { c with input := rest }, none) := by
  have hr := ReadFull_append c data rest hc
  rw [hd] at hr
  unfold header.read
  rw [hr]

theorem header_buffer_decode (h : header) (hp : InInt64 h.pkgLen) :
    toInt64 (Uint64 (h.buffer.take 8)) = h.pkgLen ∧
    h.buffer.getD 8 0 = h.cmd ∧ h.buffer.getD 9 0 = h.status := by
  rw [header_buffer_eq]
  refine ⟨?_, rfl, rfl⟩
  have : (PutUint64 (uint64 h.pkgLen) ++ [h.cmd, h.status]).take 8
      = PutUint64 (uint64 h.pkgLen) := by
    simp [PutUint64]
  rw [this, Uint64_PutUint64 _ (uint64_lt _), toInt64_uint64 hp]

/-- C4: for every header `h`, `h.buffer()` is exactly 10 bytes; bytes 0-7 are
the big-endian two's-complement encoding of the signed 64-bit `pkgLen` (byte
`i` is bits `8*(7-i) .. 8*(7-i)+7` of the bit pattern, and the bytes decode
back to `pkgLen`), byte 8 is `cmd` and byte 9 is `status`. -/
theorem C4_header_buffer_layout (h : header) (hp : InInt64 h.pkgLen) :
    h.buffer.length = 10 ∧
    (∀ i, i < 8 → h.buffer.getD i 0 = byteOf (twosComplement64 h.pkgLen / 256 ^ (7 - i))) ∧
    toInt64 (Uint64 (h.buffer.take 8)) = h.pkgLen ∧
    h.buffer.getD 8 0 = h.cmd ∧ h.buffer.getD 9 0 = h.status := by
  have ht : twosComplement64 h.pkgLen = uint64 h.pkgLen := by
    unfold InInt64 at hp
    unfold twosComplement64 uint64
    split <;> omega
  rw [header_buffer_eq]
  refine ⟨rfl, ?_, ?_, rfl, rfl⟩
  · intro i hi
    rw [ht]
    have : i = 0 ∨ i = 1 ∨ i = 2 ∨ i = 3 ∨ i = 4 ∨ i = 5 ∨ i = 6 ∨ i = 7 := by omega
    rcases this with h | h | h | h | h | h | h | h <;> subst h <;>
      simp [PutUint64]
  · have : (PutUint64 (uint64 h.pkgLen) ++ [h.cmd, h.status]).take 8
        = PutUint64 (uint64 h.pkgLen) := by
      simp [PutUint64]
    rw [this, Uint64_PutUint64 _ (uint64_lt _), toInt64_uint64 hp]

/-- Witness of C4: the header of an 18-byte upload body, and a negative
length. -/
theorem C4_header_buffer_layout_witness :
    (header.buffer ⟨18, 11, 0⟩ = [0, 0, 0, 0, 0, 0, 0, 18, 11, 0]) ∧
    (header.buffer ⟨-2, 1, 2⟩).length = 10 ∧
    toInt64 (Uint64 ((header.buffer ⟨-2, 1, 2⟩).take 8)) = -2 :=
  ⟨by decide, (C4_header_buffer_layout ⟨-2, 1, 2⟩ (by decide)).1,
    (C4_header_buffer_layout ⟨-2, 1, 2⟩ (by decide)).2.2.1⟩

/-- C5 as stated fails: on the 10 bytes `ff ff ff ff ff ff ff ff 64 02`, whose
status byte is 2, `header.read` does not report fileNotExist; the length, -1,
is checked before the status is read, and the error is the wrong pkg length. -/
theorem C5_header_read_counterexample :
    (header.read ⟨0, 0, 0⟩
        (connWith [255, 255, 255, 255, 255, 255, 255, 255, 100, 2])).2.2
      = some (str "wrong pkg length: -1") ∧
    (header.read ⟨0, 0, 0⟩
        (connWith [255, 255, 255, 255, 255, 255, 255, 255, 100, 2])).2.2
      ≠ some (str "receive fileNotExist status code 2") ∧
    (header.read ⟨0, 0, 0⟩
        (connWith [255, 255, 255, 255, 255, 255, 255, 255, 100, 2])).1.status = 0 := by
  decide

/-- C5, amended: on a 10-byte input `data` (followed by anything),
`header.read` fails exactly when the big-endian signed value `v` of bytes 0-7
is negative or byte 9 is non-zero. A negative `v` is reported as a wrong pkg
length, whatever the status byte; when `v` is not negative, status 2 is
reported as fileNotExist, 22 as invalidParameter, any other non-zero status as
the generic status error. When it succeeds the header is `v`, byte 8,
status 0. The 10 bytes are consumed in every case. Consequently reading
`h.buffer()` for a header with `pkgLen ≥ 0` and `status = 0` returns `h`. -/
theorem C5_header_read (h0 : header) (c : Conn) (data rest : Bytes)
    (hd : data.length = 10) (hc : c.input = data ++ rest) :
    ((h0.read c).2.2 ≠ none ↔
      (toInt64 (Uint64 (data.take 8)) < 0 ∨ data.getD 9 0 ≠ 0)) ∧
    (toInt64 (Uint64 (data.take 8)) < 0 → (h0.read c).2.2 =
      some (str "wrong pkg length: " ++ formatInt (toInt64 (Uint64 (data.take 8))))) ∧
    (0 ≤ toInt64 (Uint64 (data.take 8)) → data.getD 9 0 = 2 →
      (h0.read c).2.2 = some (str "receive fileNotExist status code 2")) ∧
    (0 ≤ toInt64 (Uint64 (data.take 8)) → data.getD 9 0 = 22 →
      (h0.read c).2.2 = some (str "receive invalidParameter status code 22")) ∧
    (0 ≤ toInt64 (Uint64 (data.take 8)) → data.getD 9 0 ≠ 0 → data.getD 9 0 ≠ 2 →
      data.getD 9 0 ≠ 22 → (h0.read c).2.2 =
        some (str "status code " ++ formatInt (data.getD 9 0).val ++ str " != 0")) ∧
    (0 ≤ toInt64 (Uint64 (data.take 8)) → data.getD 9 0 = 0 →
      (h0.read c).2.2 = none ∧
      (h0.read c).1 = ⟨toInt64 (Uint64 (data.take 8)), data.getD 8 0, 0⟩) ∧
    (h0.read c).2.1 = { c with input := rest } ∧
    (∀ (h : header) (tail : Bytes), 0 ≤ h.pkgLen → h.pkgLen < 2 ^ 63 → h.status = 0 →
      h0.read { c with input := h.buffer ++ tail } = (h, { c with input := tail }, none)) := by
  rw [header_read_eq h0 c data rest hd hc]
  generalize toInt64 (Uint64 (data.take 8)) = v
  generalize data.getD 9 0 = st
  generalize data.getD 8 0 = cm
  refine ⟨?_, ?_, ?_, ?_, ?_, ?_, ?_, ?_⟩
  · by_cases hv : v < 0
    · simp [hv]
    · by_cases hs : st = 0
      · simp [hv, hs]
      · simp [hv, hs]
  · intro hv
    simp [hv]
  · intro hv hs
    subst hs
    simp [show ¬ v < 0 by omega, header.statusCodeErr]
  · intro hv hs
    subst hs
    simp [show ¬ v < 0 by omega, header.statusCodeErr]
  · intro hv h0 h2 h22
    simp [show ¬ v < 0 by omega, h0, h2, h22, header.statusCodeErr]
  · intro hv hs
    subst hs
    simp [show ¬ v < 0 by omega]
  · split
    · rfl
    · split <;> rfl
  · intro h tail hp hq hs
    have hlen : h.buffer.length = 10 := by rw [header_buffer_eq]; rfl
    have hin : InInt64 h.pkgLen := ⟨by omega, hq⟩
    have h4 := header_buffer_decode h hin
    rw [header_read_eq h0 { c with input := h.buffer ++ tail } h.buffer tail hlen rfl]
    rw [h4.1, h4.2.1, h4.2.2, hs]
    rw [if_neg (show ¬ h.pkgLen < 0 by omega), if_neg (by simp)]
    cases h
    simp_all

/-- Witness of C5: a reply header with length 5 and status 2 is reported as
fileNotExist, and a well-formed header is read back. -/
theorem C5_header_read_witness :
    (header.read ⟨0, 0, 0⟩ ⟨[0, 0, 0, 0, 0, 0, 0, 5, 100, 2], [], false, none⟩).2.2
      = some (str "receive fileNotExist status code 2") ∧
    header.read ⟨0, 0, 0⟩ ⟨(header.buffer ⟨3, 100, 0⟩) ++ [1, 2, 3], [], false, none⟩
      = (⟨3, 100, 0⟩, ⟨[1, 2, 3], [], false, none⟩, none) :=
  ⟨(C5_header_read ⟨0, 0, 0⟩ ⟨[0, 0, 0, 0, 0, 0, 0, 5, 100, 2], [], false, none⟩
      [0, 0, 0, 0, 0, 0, 0, 5, 100, 2] [] (by decide) (by decide)).2.2.1
      (by decide) (by decide),
   (C5_header_read ⟨0, 0, 0⟩ ⟨[0, 0, 0, 0, 0, 0, 0, 5, 100, 2], [], false, none⟩
      [0, 0, 0, 0, 0, 0, 0, 5, 100, 2] [] (by decide) (by decide)).2.2.2.2.2.2.2
      ⟨3, 100, 0⟩ [1, 2, 3] (by decide) (by decide) (by decide)⟩

/-! ## The response cycle -/

theorem readResponse_eq (maxAlloc : Nat) (r : request) (h : header) (rest : Bytes)
    (hp : 0 ≤ h.pkgLen) (hq : h.pkgLen < 2 ^ 63) (hs : h.status = 0)
    (hc : r.c.input = h.buffer ++ rest) :
    r.readResponse maxAlloc =
      if r.respLimit > 0 ∧ h.pkgLen > r.respLimit then
        (Conn.MarkUnusable { r.c with input := rest },
          .error (NewError (str "WrongPkgLengthErr")
            (str "receive header pkg length " ++ formatInt h.pkgLen
              ++ str " exceed expected or limit size: " ++ formatInt r.respLimit)))
      else if h.pkgLen.toNat > maxAlloc then
        ({ r.c with input := rest }, .panic)
      else
        match ReadFull { r.c with input := rest } h.pkgLen.toNat with
        | (c, .error err) => (c, .error (NewError (str "ReadResponseBodyErr") err))
        | (c, .ok resp) => (c, .ok resp) := by
  have hlen : h.buffer.length = 10 := by rw [header_buffer_eq]; rfl
  have hin : InInt64 h.pkgLen := ⟨by omega, hq⟩
  have h4 := header_buffer_decode h hin
  have hr : header.read ⟨0, 0, 0⟩ r.c = (h, { r.c with input := rest }, none) := by
    rw [header_read_eq ⟨0, 0, 0⟩ r.c h.buffer rest hlen hc]
    rw [h4.1, h4.2.1, h4.2.2, hs]
    rw [if_neg (show ¬ h.pkgLen < 0 by omega), if_neg (by simp)]
    cases h
    simp_all
  unfold request.readResponse
  rw [hr]

/-- C6 as stated fails: with no limit set (`respLimit = 0`) and a header that
decodes successfully and announces `2^62` body bytes, on a stream that carries
them, `readResponse` neither returns `WrongPkgLengthErr` nor the body: the
allocation `make([]byte, pkgLen)` panics, also under the largest allocation
bound of a 64-bit runtime (`2^48`), and nothing is returned. -/
theorem C6_readResponse_counterexample :
    request.readResponse (2 ^ 48)
      ⟨⟨header.buffer ⟨2 ^ 62, 100, 0⟩ ++ List.replicate (2 ^ 62) 0, [], false, none⟩,
        [], none, 0⟩
      = (⟨List.replicate (2 ^ 62) 0, [], false, none⟩, .panic) ∧
    ((List.replicate (2 ^ 62) (0 : Byte)).length : Int) = (2 : Int) ^ 62 ∧
    ¬ ((0 : Int) > 0 ∧ (2 : Int) ^ 62 > 0) := by
  refine ⟨?_, by rw [List.length_replicate]; norm_num, by norm_num⟩
  rw [readResponse_eq (2 ^ 48)
    ⟨⟨header.buffer ⟨2 ^ 62, 100, 0⟩ ++ List.replicate (2 ^ 62) 0, [], false, none⟩,
      [], none, 0⟩ ⟨2 ^ 62, 100, 0⟩ (List.replicate (2 ^ 62) 0)
    (by norm_num) (by norm_num) rfl rfl]
  rw [if_neg (by norm_num), if_pos (by norm_num)]

/-- C6, amended: with the connection a byte stream plus an unusable flag, and
the stream starting with a header that decodes successfully (`pkgLen ≥ 0`,
status 0): `readResponse` returns `WrongPkgLengthErr` if and only if
`respLimit > 0` and `pkgLen > respLimit`; in that case the connection is marked
unusable and exactly the 10 header bytes have been consumed. Otherwise, when a
slice of `pkgLen` bytes can be allocated, on a response whose body has
`pkgLen` bytes it consumes exactly those bytes, returns them unchanged and
leaves the unusable flag as it was; when the slice cannot be allocated it does
not return, and no body byte has been consumed. -/
theorem C6_readResponse_limit (maxAlloc : Nat) (r : request) (h : header) (rest : Bytes)
    (hp : 0 ≤ h.pkgLen) (hq : h.pkgLen < 2 ^ 63) (hs : h.status = 0)
    (hc : r.c.input = h.buffer ++ rest) :
    ((∃ e, (r.readResponse maxAlloc).2 = .error e ∧ e.name = str "WrongPkgLengthErr") ↔
      (r.respLimit > 0 ∧ h.pkgLen > r.respLimit)) ∧
    ((r.respLimit > 0 ∧ h.pkgLen > r.respLimit) →
      (r.readResponse maxAlloc).1 = { r.c with input := rest, unusable := true }) ∧
    (¬ (r.respLimit > 0 ∧ h.pkgLen > r.respLimit) → h.pkgLen ≤ maxAlloc →
      ∀ (body tail : Bytes), rest = body ++ tail → (body.length : Int) = h.pkgLen →
        r.readResponse maxAlloc = ({ r.c with input := tail }, .ok body)) ∧
    (¬ (r.respLimit > 0 ∧ h.pkgLen > r.respLimit) → h.pkgLen > maxAlloc →
      r.readResponse maxAlloc = ({ r.c with input := rest }, .panic)) := by
  rw [readResponse_eq maxAlloc r h rest hp hq hs hc]
  refine ⟨?_, ?_, ?_, ?_⟩
  · by_cases hl : r.respLimit > 0 ∧ h.pkgLen > r.respLimit
    · rw [if_pos hl]
      exact ⟨fun _ => hl, fun _ => ⟨_, rfl, rfl⟩⟩
    · rw [if_neg hl]
      refine ⟨fun hx => ?_, fun hx => absurd hx hl⟩
      obtain ⟨e, he, hn⟩ := hx
      exfalso
      split at he
      · simp at he
      · split at he
        · simp only [Response.error.injEq] at he
          subst he
          revert hn
          simp only [NewError]
          decide
        · simp at he
  · intro hl
    rw [if_pos hl]
    rfl
  · intro hl hm body tail hb hbl
    rw [if_neg hl, if_neg (by omega)]
    have hn : h.pkgLen.toNat = body.length := by omega
    rw [hn, ReadFull_append { r.c with input := rest } body tail hb]
  · intro hl hm
    rw [if_neg hl, if_pos (by omega)]

/-- Witness of C6: with limit 1024 a header announcing 2048 bytes gives
`WrongPkgLengthErr`, marks the connection unusable and leaves the body unread;
a 3-byte body under the limit is returned unchanged. -/
theorem C6_readResponse_limit_witness :
    (request.readResponse (2 ^ 48)
      ⟨⟨header.buffer ⟨2048, 100, 0⟩ ++ [7, 7], [], false, none⟩, [], none, 1024⟩).1
      = ⟨[7, 7], [], true, none⟩ ∧
    request.readResponse (2 ^ 48)
      ⟨⟨header.buffer ⟨3, 100, 0⟩ ++ [1, 2, 3, 9], [], false, none⟩, [], none, 1024⟩
      = (⟨[9], [], false, none⟩, .ok [1, 2, 3]) :=
  ⟨(C6_readResponse_limit (2 ^ 48)
      ⟨⟨header.buffer ⟨2048, 100, 0⟩ ++ [7, 7], [], false, none⟩, [], none, 1024⟩
      ⟨2048, 100, 0⟩ [7, 7] (by decide) (by decide) (by decide) rfl).2.1 (by decide),
   (C6_readResponse_limit (2 ^ 48)
      ⟨⟨header.buffer ⟨3, 100, 0⟩ ++ [1, 2, 3, 9], [], false, none⟩, [], none, 1024⟩
      ⟨3, 100, 0⟩ [1, 2, 3, 9] (by decide) (by decide) (by decide) rfl).2.2.1 (by decide)
      (by decide) [1, 2, 3] [9] (by decide) (by decide)⟩

/-! ## File ids: `parseFid` -/

theorem slashed_head (es : List GoString) :
    slashed es = [] ∨ (slashed es).head? = some SLASH := by
  cases es with
  | nil => exact Or.inl rfl
  | cons e es => exact Or.inr rfl

theorem takeWhile_elem (e tp : GoString) (he : SLASH ∉ e)
    (ht : tp = [] ∨ tp.head? = some SLASH) :
    (e ++ tp).takeWhile (fun b => b ≠ SLASH) = e := by
  induction e with
  | nil =>
    rcases ht with h | h
    · subst h; rfl
    · cases tp with
      | nil => rfl
      | cons t ts =>
        simp only [List.head?_cons, Option.some.injEq] at h
        subst h
        simp [List.takeWhile]
  | cons b bs ih =>
    simp only [List.mem_cons, not_or] at he
    rw [List.cons_append, List.takeWhile_cons_of_pos (by simpa using fun e => he.1 e.symm),
      ih he.2]

theorem dropWhile_elem (e tp : GoString) (he : SLASH ∉ e)
    (ht : tp = [] ∨ tp.head? = some SLASH) :
    (e ++ tp).dropWhile (fun b => b ≠ SLASH) = tp := by
  induction e with
  | nil =>
    rcases ht with h | h
    · subst h; rfl
    · cases tp with
      | nil => rfl
      | cons t ts =>
        simp only [List.head?_cons, Option.some.injEq] at h
        subst h
        simp [List.dropWhile]
  | cons b bs ih =>
    simp only [List.mem_cons, not_or] at he
    rw [List.cons_append, List.dropWhile_cons_of_pos (by simpa using fun e => he.1 e.symm),
      ih he.2]

/-- One iteration of the loop on a kept element copies it, after a separator
when something was written before. -/
theorem cleanLoop_elem (fuel : Nat) (e tp out : GoString) (he : IsElem e)
    (ht : tp = [] ∨ tp.head? = some SLASH) :
    cleanLoop false (fuel + 1) (e ++ tp) out 0
      = cleanLoop false fuel tp ((if out.length ≠ 0 then out ++ [SLASH] else out) ++ e) 0 := by
  obtain ⟨hne, hs, hd, hdd⟩ := he
  cases e with
  | nil => exact absurd rfl hne
  | cons c e' =>
    have hc : c ≠ SLASH := fun h => hs (h ▸ List.mem_cons_self _ _)
    have hs' : SLASH ∉ e' := fun h => hs (List.mem_cons_of_mem _ h)
    have h2 : ¬ (c = DOT ∧ (e' ++ tp = [] ∨ (e' ++ tp).head? = some SLASH)) := by
      rintro ⟨h1, h2⟩
      subst h1
      cases e' with
      | nil => exact hd rfl
      | cons d e2 =>
        rcases h2 with h | h
        · simp at h
        · simp only [List.cons_append, List.head?_cons, Option.some.injEq] at h
          exact hs' (h ▸ List.mem_cons_self _ _)
    have h3 : ¬ (c = DOT ∧ (e' ++ tp).head? = some DOT ∧
        ((e' ++ tp).tail = [] ∨ (e' ++ tp).tail.head? = some SLASH)) := by
      rintro ⟨k1, k2, k3⟩
      subst k1
      cases e' with
      | nil => exact hd rfl
      | cons d e2 =>
        simp only [List.cons_append, List.head?_cons, Option.some.injEq] at k2
        subst k2
        simp only [List.cons_append, List.tail_cons] at k3
        cases e2 with
        | nil => exact hdd rfl
        | cons f e3 =>
          rcases k3 with h | h
          · simp at h
          · simp only [List.cons_append, List.head?_cons, Option.some.injEq] at h
            exact hs' (List.mem_cons_of_mem _ (h ▸ List.mem_cons_self _ _))
    rw [List.cons_append, cleanLoop, if_neg hc, if_neg h2, if_neg h3]
    simp only []
    rw [← List.cons_append, takeWhile_elem _ _ hs ht, dropWhile_elem _ _ hs ht]
    simp

theorem slashed_length_cons (e : GoString) (es : List GoString) :
    (slashed (e :: es)).length = 1 + e.length + (slashed es).length := by
  simp [slashed]; omega

/-- The loop copies a tail `/e1/.../ek` of kept elements unchanged. -/
theorem cleanLoop_slashed (es : List GoString) (hes : ∀ x ∈ es, IsElem x) :
    ∀ (fuel : Nat) (out : GoString), out ≠ [] → (slashed es).length ≤ fuel →
      cleanLoop false fuel (slashed es) out 0 = out ++ slashed es := by
  induction es with
  | nil =>
    intro fuel out _ _
    cases fuel <;> simp [slashed, cleanLoop]
  | cons e es ih =>
    intro fuel out ho hf
    have he : IsElem e := hes e (List.mem_cons_self _ _)
    have hes' : ∀ x ∈ es, IsElem x := fun x hx => hes x (List.mem_cons_of_mem _ hx)
    have hel : 1 ≤ e.length := by
      cases e with
      | nil => exact absurd rfl he.1
      | cons a b => simp
    rw [slashed_length_cons] at hf
    obtain ⟨f, rfl⟩ : ∃ f, fuel = (f + 1) + 1 := ⟨fuel - 2, by omega⟩
    have ho' : out.length ≠ 0 := by
      cases out with
      | nil => exact absurd rfl ho
      | cons a b => simp
    rw [slashed, List.cons_append, cleanLoop, if_pos rfl, cleanLoop_elem f e (slashed es) out he (slashed_head es),
      if_pos ho', ih hes' f _ (by simp) (by omega)]
    simp

/-- `Clean` leaves a clean relative path `e/e1/.../ek` unchanged. -/
theorem Clean_elems (e : GoString) (es : List GoString) (he : IsElem e)
    (hes : ∀ x ∈ es, IsElem x) : Clean (e ++ slashed es) = e ++ slashed es := by
  obtain ⟨c, e', rfl⟩ : ∃ c e', e = c :: e' := by
    cases e with
    | nil => exact absurd rfl he.1
    | cons a b => exact ⟨a, b, rfl⟩
  have hc : c ≠ SLASH := fun h => he.2.1 (h ▸ List.mem_cons_self _ _)
  unfold Clean
  rw [if_neg (by simp)]
  have hr : decide ((c :: e' ++ slashed es).head? = some SLASH) = false := by
    simpa using hc
  simp only [hr]
  have hl : (c :: e' ++ slashed es).length = (e' ++ slashed es).length + 1 := by simp
  have key : cleanLoop false (c :: e' ++ slashed es).length (c :: e' ++ slashed es) [] 0
      = c :: e' ++ slashed es := by
    rw [hl, cleanLoop_elem _ (c :: e') (slashed es) [] he (slashed_head es)]
    simp only [List.length_nil, ne_eq, not_true_eq_false, if_false, List.nil_append]
    exact cleanLoop_slashed es hes _ _ (by simp) (by simp)
  simp only [Bool.false_eq_true, if_false]
  rw [key]
  simp

/-- The model of `Clean` agrees with the standard library's own test table on
these entries. -/
theorem Clean_test_table :
    Clean (str "") = str "." ∧
    Clean (str ".") = str "." ∧
    Clean (str "abc/") = str "abc" ∧
    Clean (str "//abc") = str "/abc" ∧
    Clean (str "abc//./../def") = str "def" ∧
    Clean (str "abc/./../def") = str "def" ∧
    Clean (str "abc/def/..") = str "abc" ∧
    Clean (str "abc/def/ghi/../jkl") = str "abc/def/jkl" ∧
    Clean (str "abc/def/../ghi/../jkl") = str "abc/jkl" ∧
    Clean (str "abc/def/../../..") = str ".." ∧
    Clean (str "/abc/def/../../..") = str "/" ∧
    Clean (str "abc/../../././../def") = str "../../def" ∧
    Clean (str "/../abc") = str "/abc" ∧
    Clean (str "/..") = str "/" ∧
    Clean (str "../../a") = str "../../a" := by
  decide

/-- The loop of `Clean` ends before its fuel does: with fuel at least the
length of the unread path, more fuel changes nothing. -/
theorem cleanLoop_fuel (rooted : Bool) :
    ∀ (fuel : Nat) (path out : Bytes) (dotdot : Nat), path.length ≤ fuel →
      cleanLoop rooted (fuel + 1) path out dotdot = cleanLoop rooted fuel path out dotdot := by
  intro fuel
  induction fuel with
  | zero =>
    intro path out dotdot h
    have : path = [] := List.length_eq_zero.1 (by omega)
    subst this
    simp [cleanLoop]
  | succ n ih =>
    intro path out dotdot h
    cases path with
    | nil => simp [cleanLoop]
    | cons c rest =>
      have hr : rest.length ≤ n := by simpa using h
      have ht : rest.tail.length ≤ n := by
        rw [List.length_tail]; omega
      conv_lhs => rw [cleanLoop]
      conv_rhs => rw [cleanLoop]
      by_cases h1 : c = SLASH
      · rw [if_pos h1, if_pos h1]
        exact ih _ _ _ hr
      · rw [if_neg h1, if_neg h1]
        have hd : ((c :: rest).dropWhile (fun b => b ≠ SLASH)).length ≤ n := by
          rw [List.dropWhile_cons_of_pos (by simpa using h1)]
          exact le_trans (List.Sublist.length_le (List.dropWhile_sublist _)) hr
        split_ifs <;> first | exact ih _ _ _ hr | exact ih _ _ _ ht | exact ih _ _ _ hd

/-! ## Requests: what is written -/

theorem ReadFull_output (c : Conn) (n : Nat) : (ReadFull c n).1.output = c.output := by
  unfold ReadFull
  split <;> rfl

theorem ReadFull_unusable (c : Conn) (n : Nat) : (ReadFull c n).1.unusable = c.unusable := by
  unfold ReadFull
  split <;> rfl

theorem header_read_output (h : header) (c : Conn) : (h.read c).2.1.output = c.output := by
  have h1 := ReadFull_output c 10
  unfold header.read
  split
  · rename_i hh
    rw [hh] at h1
    exact h1
  · rename_i hh
    rw [hh] at h1
    simp only []
    split
    · exact h1
    · split <;> exact h1

theorem readResponse_output (maxAlloc : Nat) (r : request) :
    (r.readResponse maxAlloc).1.output = r.c.output := by
  have h1 := header_read_output ⟨0, 0, 0⟩ r.c
  unfold request.readResponse
  split
  · rename_i hh
    rw [hh] at h1
    exact h1
  · rename_i hh
    rw [hh] at h1
    simp only [] at h1
    split
    · exact h1
    · split
      · exact h1
      · rename_i c0 _ _
        have h2 := ReadFull_output c0 (Int.toNat (header.pkgLen ‹header›))
        split
        · rename_i h3
          rw [h3] at h2
          exact h2.trans h1
        · rename_i h3
          rw [h3] at h2
          exact h2.trans h1

/-- What `request.do` writes when writes succeed: the header buffer, then the
body. -/
theorem do_output (maxAlloc : Nat) (r : request) (hw : r.c.writeErr = none) :
    (r.do maxAlloc).1.output = r.c.output ++ r.header ++ r.body.getD [] := by
  unfold request.do Conn.Write
  rw [hw]
  simp only []
  cases hb : r.body with
  | none =>
    simp only [Option.getD_none, List.append_nil]
    rw [readResponse_output]
  | some body =>
    simp only [Option.getD_some]
    rw [readResponse_output]

theorem uint64_int64_nat (n : Nat) (h : (n : Int) < 2 ^ 63) : uint64 (int64 (n : Int)) = n := by
  unfold uint64 int64
  omega

theorem int64_nat (n : Nat) (h : (n : Int) < 2 ^ 63) : int64 (n : Int) = n := by
  unfold int64
  omega

theorem fixString_eq_ite (s : GoString) (w : Nat) :
    fixString s w
      = if s.length ≥ w then s.take w else s ++ List.replicate (w - s.length) NUL := by
  rw [fixString_eq]
  by_cases h : s.length ≥ w
  · simp [h, show w - s.length = 0 by omega]
  · simp [h, List.take_of_length_le (show s.length ≤ w by omega)]

theorem fixString_length (s : GoString) (w : Nat) : (fixString s w).length = w := by
  rw [fixString_eq]
  simp only [List.length_append, List.length_take, List.length_replicate]
  omega

theorem header_buffer_length (h : header) : h.buffer.length = 10 := by
  rw [header_buffer_eq]; rfl

/-- The length field decoded from a buffer that starts with `h.buffer()`. -/
theorem pkgLen_of_buffer (h : header) (tail : Bytes) (hp : InInt64 h.pkgLen) :
    toInt64 (Uint64 ((h.buffer ++ tail).take 8)) = h.pkgLen := by
  have h8 : (h.buffer ++ tail).take 8 = h.buffer.take 8 := by
    rw [List.take_append_of_le_length (by rw [header_buffer_length]; omega)]
  rw [h8]
  exact (header_buffer_decode h hp).1

theorem lenExact_of (conn : Conn) (h : header) (tail : Bytes) (body : Option Bytes)
    (lim : Int) (n : Nat) (hn : (n : Int) < 2 ^ 63) (hp : h.pkgLen = int64 (n : Int))
    (hl : tail.length + (request.bodyLen ⟨conn, h.buffer ++ tail, body, lim⟩) = n) :
    request.lenExact ⟨conn, h.buffer ++ tail, body, lim⟩ := by
  have hpk : h.pkgLen = n := by rw [hp, int64_nat n hn]
  have hin : InInt64 h.pkgLen := by
    rw [hpk]
    constructor <;> omega
  unfold request.lenExact request.pkgLenWritten
  simp only []
  rw [pkgLen_of_buffer h tail hin, hpk, List.length_append, header_buffer_length]
  omega

/-- C1: for every request the library builds (`Storage.Append`, `Delete`,
`Download`, `Upload`, `UploadSlave`, `Tracker.QueryUploadStorage`,
`QueryUpdateStorage`, `QueryDownloadStorage`) and all arguments whose lengths
fit Go's `int` sum, the `pkgLen` written in the 10-byte header is the exact
number of bytes written after it: `len(header) + len(body) = 10 + pkgLen`. -/
theorem C1_pkgLen_exact (P : Proto) (s : Storage) (t : Tracker) (conn : Conn) (b : Bytes)
    (filename group master suffix ext : GoString) (offset length : Int) (pathIndex : Byte)
    (allowAppend : Bool) :
    ((16 + filename.length + b.length : Nat) < 2 ^ 63 →
      (s.appendRequest P conn b filename).lenExact) ∧
    ((16 + filename.length : Nat) < 2 ^ 63 →
      (s.deleteRequest P conn filename).lenExact) ∧
    ((32 + filename.length : Nat) < 2 ^ 63 →
      (s.downloadRequest P conn filename offset length).lenExact) ∧
    ((15 + b.length : Nat) < 2 ^ 63 →
      (s.uploadRequest P conn b pathIndex ext allowAppend).lenExact) ∧
    ((38 + master.length + b.length : Nat) < 2 ^ 63 →
      (s.uploadSlaveRequest P conn b master suffix ext).lenExact) ∧
    (t.queryUploadStorageRequest P conn group).lenExact ∧
    ((16 + filename.length : Nat) < 2 ^ 63 →
      (t.queryUpdateStorageRequest P conn group filename).lenExact) ∧
    ((16 + filename.length : Nat) < 2 ^ 63 →
      (t.queryDownloadStorageRequest P conn group filename).lenExact) := by
  refine ⟨?_, ?_, ?_, ?_, ?_, ?_, ?_, ?_⟩
  · intro hf
    simp only [Storage.appendRequest, binaryWriteInt64, List.append_assoc]
    refine lenExact_of _ _ _ _ _ (16 + filename.length + b.length) (by exact_mod_cast hf)
      (by push_cast; rfl) ?_
    simp [request.bodyLen, PutUint64_length]
    omega
  · intro hf
    simp only [Storage.deleteRequest, List.append_assoc]
    refine lenExact_of _ _ _ _ _ (16 + filename.length) (by exact_mod_cast hf)
      (by push_cast [FDFS_GROUP_NAME_MAX_LEN]; rfl) ?_
    simp [request.bodyLen, fixString_length, FDFS_GROUP_NAME_MAX_LEN]
  · intro hf
    simp only [Storage.downloadRequest, binaryWriteInt64, List.append_assoc]
    refine lenExact_of _ _ _ _ _ (32 + filename.length) (by exact_mod_cast hf)
      (by push_cast; rfl) ?_
    simp [request.bodyLen, fixString_length, PutUint64_length, FDFS_GROUP_NAME_MAX_LEN]
    omega
  · intro hf
    simp only [Storage.uploadRequest, binaryWriteInt64, List.append_assoc]
    refine lenExact_of _ _ _ _ _ (15 + b.length) (by exact_mod_cast hf)
      (by push_cast; rfl) ?_
    simp [request.bodyLen, fixString_length, PutUint64_length, FDFS_FILE_EXT_NAME_MAX_LEN]
  · intro hf
    simp only [Storage.uploadSlaveRequest, binaryWriteInt64, List.append_assoc]
    refine lenExact_of _ _ _ _ _ (38 + master.length + b.length) (by exact_mod_cast hf)
      (by push_cast; rfl) ?_
    simp [request.bodyLen, fixString_length, PutUint64_length, FDFS_FILE_EXT_NAME_MAX_LEN,
      FDFS_FILE_PREFIX_MAX_LEN]
    omega
  · simp only [Tracker.queryUploadStorageRequest, List.append_assoc]
    refine lenExact_of _ _ _ _ _ 16 (by norm_num)
      (by simp [FDFS_GROUP_NAME_MAX_LEN]) ?_
    simp [request.bodyLen, fixString_length, FDFS_GROUP_NAME_MAX_LEN]
  · intro hf
    simp only [Tracker.queryUpdateStorageRequest, Tracker.queryFileStorageRequest,
      List.append_assoc]
    refine lenExact_of _ _ _ _ _ (16 + filename.length) (by exact_mod_cast hf)
      (by push_cast [FDFS_GROUP_NAME_MAX_LEN]; rfl) ?_
    simp [request.bodyLen, fixString_length, FDFS_GROUP_NAME_MAX_LEN]
  · intro hf
    simp only [Tracker.queryDownloadStorageRequest, Tracker.queryFileStorageRequest,
      List.append_assoc]
    refine lenExact_of _ _ _ _ _ (16 + filename.length) (by exact_mod_cast hf)
      (by push_cast [FDFS_GROUP_NAME_MAX_LEN]; rfl) ?_
    simp [request.bodyLen, fixString_length, FDFS_GROUP_NAME_MAX_LEN]

/-- Witness of C1: an append of 3 bytes to `M00/a` announces 24 bytes, and a
plain upload of 3 bytes announces 18. -/
theorem C1_pkgLen_exact_witness :
    (Storage.appendRequest exampleProto (storageWith (connWith [])) (connWith []) [1, 2, 3]
      (str "M00/a")).lenExact ∧
    (Storage.uploadRequest exampleProto (storageWith (connWith [])) (connWith []) [1, 2, 3]
      0 (str "jpg") false).lenExact ∧
    (Storage.uploadRequest exampleProto (storageWith (connWith [])) (connWith []) [1, 2, 3]
      0 (str "jpg") false).pkgLenWritten = 18 :=
  ⟨(C1_pkgLen_exact exampleProto (storageWith (connWith [])) (trackerWith (connWith []))
      (connWith []) [1, 2, 3] (str "M00/a") (str "g1") (str "g1/M00/a") (str "_s") (str "jpg")
      0 0 0 false).1 (by norm_num [str]),
   (C1_pkgLen_exact exampleProto (storageWith (connWith [])) (trackerWith (connWith []))
      (connWith []) [1, 2, 3] (str "M00/a") (str "g1") (str "g1/M00/a") (str "_s") (str "jpg")
      0 0 0 false).2.2.2.1 (by norm_num),
   by decide⟩

/-! ## Upload: the bytes written -/

/-- C7: for every content `b`, path index `p`, extension `ext` and flag
`allowAppend`, on a connection whose writes succeed `Storage.Upload` writes:
the 10-byte header with `pkgLen = 15 + len(b)`, `cmd = UPLOAD_FILE` when
`allowAppend` is false and `UPLOAD_APPENDER_FILE` when it is true, `status = 0`;
then the byte `p`; then `len(b)` as an 8-byte big-endian integer; then `ext` as
a 6-byte NUL-padded or truncated field; then `b` itself. -/
theorem C7_upload_bytes (P : Proto) (maxAlloc : Nat) (s : Storage) (c : Conn) (b : Bytes)
    (p : Byte) (ext : GoString) (allowAppend : Bool)
    (hg : s.pool.Get = .ok c) (hw : c.writeErr = none) (hb : (15 + b.length : Nat) < 2 ^ 63) :
    ∃ c', (s.Upload P maxAlloc b p ext allowAppend).1 = some c' ∧
      c'.output = c.output ++
        (header.buffer ⟨15 + b.length,
            if allowAppend then P.STORAGE_PROTO_CMD_UPLOAD_APPENDER_FILE
            else P.STORAGE_PROTO_CMD_UPLOAD_FILE, 0⟩
          ++ [p] ++ PutUint64 b.length
          ++ (if ext.length ≥ 6 then ext.take 6 else ext ++ List.replicate (6 - ext.length) NUL)
          ++ b) := by
  have hdo := do_output maxAlloc (s.uploadRequest P c b p ext allowAppend) hw
  have hreq : (s.uploadRequest P c b p ext allowAppend).header
      = header.buffer ⟨15 + b.length,
            if allowAppend then P.STORAGE_PROTO_CMD_UPLOAD_APPENDER_FILE
            else P.STORAGE_PROTO_CMD_UPLOAD_FILE, 0⟩
          ++ [p] ++ PutUint64 b.length
          ++ (if ext.length ≥ 6 then ext.take 6
              else ext ++ List.replicate (6 - ext.length) NUL) := by
    have h1 : int64 (15 + (b.length : Int)) = 15 + (b.length : Int) := by
      have := int64_nat (15 + b.length) (by exact_mod_cast hb)
      push_cast at this
      exact this
    have h2 : uint64 (int64 (b.length : Int)) = b.length :=
      uint64_int64_nat b.length (by have : (b.length : Int) < 2 ^ 63 := by
                                      have h3 : ((15 + b.length : Nat) : Int) < 2 ^ 63 := by
                                        exact_mod_cast hb
                                      push_cast at h3
                                      omega
                                    exact this)
    simp only [Storage.uploadRequest, binaryWriteInt64, h1, h2, fixString_eq_ite,
      FDFS_FILE_EXT_NAME_MAX_LEN]
  have hbody : (s.uploadRequest P c b p ext allowAppend).body = some b := rfl
  have hc : (s.uploadRequest P c b p ext allowAppend).c = c := rfl
  rw [hreq, hbody, hc] at hdo
  unfold Storage.Upload
  rw [hg]
  simp only []
  split
  · rename_i c1 err hh
    refine ⟨c1, rfl, ?_⟩
    rw [hh] at hdo
    simpa [List.append_assoc] using hdo
  · rename_i c1 recv hh
    refine ⟨c1, rfl, ?_⟩
    rw [hh] at hdo
    simpa [List.append_assoc] using hdo
  · rename_i c1 hh
    refine ⟨c1, rfl, ?_⟩
    rw [hh] at hdo
    simpa [List.append_assoc] using hdo

/-- Witness of C7, the upload scenario of the specification: `b = 01 02 03`,
`ext = "jpg"`, path index 0 gives `pkgLen = 18`, opcode `UPLOAD_FILE`, then
`00`, `00 00 00 00 00 00 00 03`, `"jpg"` and three NULs, `01 02 03`; the reply
is turned into the file id. -/
theorem C7_upload_bytes_witness :
    (∃ c', (Storage.Upload exampleProto (2 ^ 48)
        (storageWith (connWith (header.buffer ⟨33, 100, 0⟩ ++ uploadReply)))
        [1, 2, 3] 0 (str "jpg") false).1 = some c' ∧
      c'.output = [] ++ ([0, 0, 0, 0, 0, 0, 0, 18, 11, 0] ++ [0] ++ [0, 0, 0, 0, 0, 0, 0, 3]
        ++ (str "jpg" ++ [NUL, NUL, NUL]) ++ [1, 2, 3])) ∧
    (Storage.Upload exampleProto (2 ^ 48)
        (storageWith (connWith (header.buffer ⟨33, 100, 0⟩ ++ uploadReply)))
        [1, 2, 3] 0 (str "jpg") false).2 = some (str "g1/M01/AB/CD/xyz.jpg", none) :=
  ⟨C7_upload_bytes exampleProto (2 ^ 48)
      (storageWith (connWith (header.buffer ⟨33, 100, 0⟩ ++ uploadReply)))
      (connWith (header.buffer ⟨33, 100, 0⟩ ++ uploadReply)) [1, 2, 3] 0 (str "jpg") false
      rfl rfl (by norm_num),
   by decide⟩

/-! ## File ids: the claims -/

/-- C8 as stated fails: on a 16-byte upload reply (`g1` and 14 NULs, empty
remote name) `parseFid` returns `g1`, not `g1/`; and a remote name with an
empty element is not returned unchanged (`M00//a` becomes `M00/a`). -/
theorem C8_parseFid_counterexample :
    (storageWith (connWith [])).parseFid (str "g1" ++ List.replicate 14 NUL)
      = (str "g1", none) ∧
    (storageWith (connWith [])).parseFid (str "g1" ++ List.replicate 14 NUL)
      ≠ (stripString ((str "g1" ++ List.replicate 14 NUL).take 16) ++ [SLASH]
          ++ (str "g1" ++ List.replicate 14 NUL).drop 16, none) ∧
    (storageWith (connWith [])).parseFid (str "g1" ++ List.replicate 14 NUL ++ str "M00//a")
      = (str "g1/M00/a", none) := by
  decide

/-- C8, amended: for every upload reply body of at least 16 bytes `parseFid`
returns `filepath.Join(group, rest)` with no error, where `group` is the first
16 bytes cut at their first NUL and `rest` the remaining bytes; this is exactly
`group`, one `/`, then `rest` unchanged whenever `group` is a single path
element (non-empty, no `/`, not `.` or `..`) and `rest` is a clean name
(non-empty elements separated by single `/`, none `.` or `..`). A reply
shorter than 16 bytes is rejected with the unexpected-length error, wrapped
with the storage qualifier. -/
theorem C8_parseFid_join (s : Storage) (recv : Bytes) :
    (recv.length < 16 →
      s.parseFid recv = ([], s.wrapError (some (unexpectedPkgLenErr recv.length 16))) ∧
      (s.parseFid recv).2 ≠ none) ∧
    (16 ≤ recv.length →
      s.parseFid recv = (filepathJoin (stripString (recv.take 16)) (recv.drop 16), none)) ∧
    (16 ≤ recv.length → IsElem (stripString (recv.take 16)) → IsCleanName (recv.drop 16) →
      s.parseFid recv = (stripString (recv.take 16) ++ [SLASH] ++ recv.drop 16, none)) := by
  have hjoin : 16 ≤ recv.length →
      s.parseFid recv = (filepathJoin (stripString (recv.take 16)) (recv.drop 16), none) := by
    intro h
    unfold Storage.parseFid
    rw [if_neg (by simp only [FDFS_GROUP_NAME_MAX_LEN]; omega)]
    rfl
  refine ⟨?_, hjoin, ?_⟩
  · intro h
    unfold Storage.parseFid
    rw [if_pos (by simp only [FDFS_GROUP_NAME_MAX_LEN]; omega)]
    exact ⟨rfl, by simp [Storage.wrapError, FDFS_GROUP_NAME_MAX_LEN]⟩
  · intro h hg hn
    rw [hjoin h]
    obtain ⟨n, ns, hn1, hn2, hn3⟩ := hn
    unfold filepathJoin
    rw [if_pos hg.1, hn3]
    have : stripString (recv.take 16) ++ [SLASH] ++ (n ++ slashed ns)
        = stripString (recv.take 16) ++ slashed (n :: ns) := by
      simp [slashed]
    rw [this, Clean_elems _ (n :: ns) hg]
    intro x hx
    rcases List.mem_cons.1 hx with h | h
    · exact h ▸ hn1
    · exact hn2 x h

/-- Witness of C8, the reply of the specification's scenario: `g1`, 14 NULs
and `M01/AB/CD/xyz.jpg` give `g1/M01/AB/CD/xyz.jpg`. -/
theorem C8_parseFid_join_witness :
    (storageWith (connWith [])).parseFid uploadReply = (str "g1/M01/AB/CD/xyz.jpg", none) :=
  ((C8_parseFid_join (storageWith (connWith [])) uploadReply).2.2 (by decide) (by decide)
    ⟨str "M01", [str "AB", str "CD", str "xyz.jpg"], by decide, by decide, by decide⟩).trans
    (by decide)

theorem IndexByte_some_mem {s : GoString} {c : Byte} {m : Nat} (h : IndexByte s c = some m) :
    c ∈ s := by
  by_contra hc
  induction s generalizing m with
  | nil => simp [IndexByte] at h
  | cons b bs ih =>
    simp only [List.mem_cons, not_or] at hc
    simp only [IndexByte, if_neg (Ne.symm hc.1), Option.map_eq_some'] at h
    obtain ⟨k, hk, _⟩ := h
    exact ih hk hc.2

theorem IndexByte_some_lt {s : GoString} {c : Byte} {m : Nat} (h : IndexByte s c = some m) :
    m < s.length := by
  induction s generalizing m with
  | nil => simp [IndexByte] at h
  | cons b bs ih =>
    simp only [IndexByte] at h
    split at h
    · simp only [Option.some.injEq] at h
      subst h
      simp
    · simp only [Option.map_eq_some'] at h
      obtain ⟨k, hk, rfl⟩ := h
      have := ih hk
      simp
      omega

theorem IndexByte_append (g r : GoString) (c : Byte) (hg : c ∉ g) :
    IndexByte (g ++ c :: r) c = some g.length := by
  induction g with
  | nil => simp [IndexByte]
  | cons b bs ih =>
    simp only [List.mem_cons, not_or] at hg
    simp [IndexByte, if_neg (Ne.symm hg.1), ih hg.2]

theorem IndexByte_of_not_mem {s : GoString} {c : Byte} (h : c ∉ s) : IndexByte s c = none := by
  cases hi : IndexByte s c with
  | none => rfl
  | some m => exact absurd (IndexByte_some_mem hi) h

/-- `strings.SplitN(fid, "/", 2)`: one cut at the first separator. -/
theorem SplitN_two (fid : GoString) :
    SplitN fid SLASH 2 =
      match IndexByte fid SLASH with
      | none => [fid]
      | some m => [fid.take m, fid.drop (m + 1)] := by
  unfold SplitN
  rw [if_neg (by decide)]
  cases hi : IndexByte fid SLASH with
  | none =>
    simp only []
    split
    · have : fid.length + 1 - 1 = 0 ∨ fid.length + 1 - 1 = 0 + 1 := by omega
      rcases this with h | h <;> rw [h] <;> simp [splitLoop, hi]
    · simp [splitLoop, hi]
  | some m =>
    have hl := IndexByte_some_lt hi
    simp only []
    rw [if_neg (by omega)]
    simp [splitLoop, hi]

theorem splitFid_eq (c : Cluster) (fid : GoString) :
    c.splitFid fid =
      match IndexByte fid SLASH with
      | none => ([], [], some ((wrongFidErr fid).Wrap c.name))
      | some m => (fid.take m, fid.drop (m + 1), none) := by
  unfold Cluster.splitFid
  rw [SplitN_two]
  cases hi : IndexByte fid SLASH with
  | none => simp [Cluster.wrapError]
  | some m => simp

/-- C9: for every group name `g` without `/` and every remote name `r`,
`splitFid` of `g`, `/`, `r` returns `(g, r)` and no error; for every string
without `/` it fails with `WrongFidErr` (under the cluster's name); hence it
fails if and only if the fid contains no `/`. -/
theorem C9_splitFid (c : Cluster) :
    (∀ (g r : GoString), SLASH ∉ g → c.splitFid (g ++ [SLASH] ++ r) = (g, r, none)) ∧
    (∀ (fid : GoString), SLASH ∉ fid →
      c.splitFid fid = ([], [], some ⟨c.name ++ str "." ++ str "WrongFidErr",
        str "fid is not with format group/filename: " ++ fid⟩)) ∧
    (∀ (fid : GoString), (c.splitFid fid).2.2 ≠ none ↔ SLASH ∉ fid) := by
  refine ⟨?_, ?_, ?_⟩
  · intro g r hg
    rw [splitFid_eq]
    have : g ++ [SLASH] ++ r = g ++ SLASH :: r := by simp
    rw [this, IndexByte_append g r SLASH hg]
    simp
  · intro fid hf
    rw [splitFid_eq, IndexByte_of_not_mem hf]
    rfl
  · intro fid
    rw [splitFid_eq]
    cases hi : IndexByte fid SLASH with
    | none => simpa using IndexByte_none hi
    | some m => simpa using IndexByte_some_mem hi

/-- Witness of C9: a fid with slashes in the remote name splits at the first
one, and a fid without a slash is refused. -/
theorem C9_splitFid_witness :
    Cluster.splitFid (New (str "Cluster")) (str "g1" ++ [SLASH] ++ str "M00/00/00/a.bin")
      = (str "g1", str "M00/00/00/a.bin", none) ∧
    Cluster.splitFid (New (str "Cluster")) (str "nofid")
      = ([], [], some ⟨str "Cluster.WrongFidErr",
          str "fid is not with format group/filename: nofid"⟩) :=
  ⟨(C9_splitFid (New (str "Cluster"))).1 (str "g1") (str "M00/00/00/a.bin") (by decide),
   ((C9_splitFid (New (str "Cluster"))).2.1 (str "nofid") (by decide)).trans (by decide)⟩

/-! ## Tracker replies -/

/-- C10: `TrackerStoreInfo.cast` fails if and only if the reply length differs
from the expected fixed size (40 bytes with a path index, 39 without). On a
39-byte query-store reply the error reports the lengths 39 and 40, and its
name is ` UnexpectedLenErr` with a leading blank, not `UnexpectedLenErr`. -/
theorem C10_cast_length_check :
    (∀ (tsi : TrackerStoreInfo) (recv : Bytes) (cp : Bool),
      (tsi.cast recv cp).2 ≠ none ↔ recv.length ≠ (if cp then 40 else 39)) ∧
    (TrackerStoreInfo.cast ⟨[], [], 0⟩ (List.replicate 39 0) true).2
      = some ⟨str " UnexpectedLenErr", str "received pkg length 39 != expected 40"⟩ ∧
    (∀ e, (TrackerStoreInfo.cast ⟨[], [], 0⟩ (List.replicate 39 0) true).2 = some e →
      e.name ≠ str "UnexpectedLenErr") := by
  refine ⟨?_, by decide, ?_⟩
  · intro tsi recv cp
    unfold TrackerStoreInfo.cast
    cases cp
    · by_cases h : recv.length = 39
      · simp [h, TRACKER_QUERY_STORAGE_FETCH_BODY_LEN]
      · simp [h, TRACKER_QUERY_STORAGE_FETCH_BODY_LEN]
    · by_cases h : recv.length = 40
      · simp [h, TRACKER_QUERY_STORAGE_STORE_BODY_LEN]
      · simp [h, TRACKER_QUERY_STORAGE_STORE_BODY_LEN]
  · intro e he
    have h : (TrackerStoreInfo.cast ⟨[], [], 0⟩ (List.replicate 39 0) true).2
        = some ⟨str " UnexpectedLenErr", str "received pkg length 39 != expected 40"⟩ := by
      decide
    rw [h] at he
    simp only [Option.some.injEq] at he
    subst he
    decide

/-! ## Tracker replies: the fields -/

theorem decimalAux_eq : ∀ (fuel n : Nat) (acc : Bytes), n < fuel → 0 < n →
    decimalAux fuel n acc = (Nat.digits 10 n).reverse.map (fun d => byteOf (48 + d)) ++ acc := by
  intro fuel
  induction fuel with
  | zero => intro n acc h; omega
  | succ f ih =>
    intro n acc h hn
    rw [decimalAux]
    rw [Nat.digits_def' (by norm_num) hn]
    by_cases h10 : n / 10 = 0
    · rw [if_pos h10, h10]
      simp
    · rw [if_neg h10, ih (n / 10) _ (by omega) (by omega)]
      simp

theorem formatUint_eq_decimal (n : Nat) : formatUint n = decimal n := by
  unfold formatUint decimal
  by_cases h : n = 0
  · subst h
    simp [decimalAux]
  · rw [if_neg h, decimalAux_eq (n + 1) n [] (by omega) (by omega)]
    simp

theorem Uint64_eq_bigEndian (b : Bytes) (h : b.length = 8) : Uint64 b = bigEndian b := by
  match b, h with
  | [b0, b1, b2, b3, b4, b5, b6, b7], _ =>
    simp only [Uint64, bigEndian, List.foldl, List.getD_cons_zero, List.getD_cons_succ]
    omega

theorem cutAtNul_no_nul (s : GoString) : NUL ∉ cutAtNul s := by
  unfold cutAtNul
  intro h
  have := List.mem_takeWhile_imp h
  simp at this

theorem cast_eq (tsi : TrackerStoreInfo) (recv : Bytes) ( containPath : Bool)
    (h : recv.length = if containPath then 40 else 39) :
    tsi.cast recv containPath =
      ({ Address := cutAtNul ((recv.drop 16).take 15) ++ str ":"
            ++ decimal (bigEndian ((recv.drop 31).take 8))
         Group := cutAtNul (recv.take 16)
         PathIndex := if containPath then recv.getD 39 0 else tsi.PathIndex }, none) := by
  have h8 : ((recv.drop 31).take 8).length = 8 := by
    rw [List.length_take, List.length_drop]
    cases containPath <;> simp at h <;> omega
  have hu := Uint64_eq_bigEndian _ h8
  unfold TrackerStoreInfo.cast
  cases containPath
  · simp only [Bool.false_eq_true, if_false] at h
    rw [if_neg (by simp), if_neg (by simp [h, TRACKER_QUERY_STORAGE_FETCH_BODY_LEN])]
    simp only [stripString_eq, hu, formatUint_eq_decimal, Bool.false_eq_true, if_false]
  · simp only [if_true] at h
    rw [if_pos rfl, if_neg (by simp [h, TRACKER_QUERY_STORAGE_STORE_BODY_LEN])]
    simp only [stripString_eq, hu, formatUint_eq_decimal, if_true]

/-- C11: for every tracker reply of the expected length (40 bytes with a path
index, 39 without) `TrackerStoreInfo.cast` succeeds, sets `Group` to bytes 0-15
cut at the first NUL and `Address` to bytes 16-30 cut at the first NUL, a `:`
and the decimal rendering of the big-endian unsigned integer in bytes 31-38;
`Group` and the host part contain no NUL byte; `PathIndex` is byte 39 of a
40-byte reply and is left unchanged by a 39-byte reply. -/
theorem C11_cast_fields (tsi : TrackerStoreInfo) (recv : Bytes) ( containPath : Bool)
    (h : recv.length = if containPath then 40 else 39) :
    (tsi.cast recv containPath).2 = none ∧
    (tsi.cast recv containPath).1.Group = cutAtNul (recv.take 16) ∧
    (tsi.cast recv containPath).1.Address
      = cutAtNul ((recv.drop 16).take 15) ++ str ":"
          ++ decimal (bigEndian ((recv.drop 31).take 8)) ∧
    NUL ∉ (tsi.cast recv containPath).1.Group ∧
    NUL ∉ cutAtNul ((recv.drop 16).take 15) ∧
    (containPath = true → (tsi.cast recv containPath).1.PathIndex = recv.getD 39 0) ∧
    (containPath = false → (tsi.cast recv containPath).1.PathIndex = tsi.PathIndex) := by
  rw [cast_eq tsi recv containPath h]
  refine ⟨rfl, rfl, rfl, cutAtNul_no_nul _, cutAtNul_no_nul _, ?_, ?_⟩
  · intro hc
    simp [hc]
  · intro hc
    simp [hc]

/-- Witness of C11: the 40-byte reply for `g1` at `10.0.0.1`, port 23000, path
index 3, and the 39-byte reply without the path index. -/
theorem C11_cast_fields_witness :
    TrackerStoreInfo.cast ⟨[], [], 0⟩ storeReply true
      = (⟨str "10.0.0.1:23000", str "g1", 3⟩, none) ∧
    (TrackerStoreInfo.cast ⟨[], [], 7⟩ fetchReply false).1.PathIndex = 7 ∧
    (TrackerStoreInfo.cast ⟨[], [], 7⟩ fetchReply false).1.Group = cutAtNul (fetchReply.take 16) :=
  ⟨by decide,
   (C11_cast_fields ⟨[], [], 7⟩ fetchReply false (by decide)).2.2.2.2.2.2 rfl,
   (C11_cast_fields ⟨[], [], 7⟩ fetchReply false (by decide)).2.1⟩

/-! ## Error names -/

/-- C13: name composition by `Error.Wrap` is additive and order-preserving.
Wrapping with `n3`, then `n2`, then `n1` yields the name `n1.n2.n3.inner`;
each `Wrap(n)` turns the name `x` into `n`, a dot, `x`, so the previous name
stays as a suffix; the detail is never changed. -/
theorem C13_wrap_names (e : Error) (n1 n2 n3 n : GoString) :
    (((e.Wrap n3).Wrap n2).Wrap n1).name
      = n1 ++ str "." ++ n2 ++ str "." ++ n3 ++ str "." ++ e.name ∧
    (e.Wrap n).name = n ++ str "." ++ e.name ∧
    e.name <:+ (e.Wrap n).name ∧
    e.name <:+ (((e.Wrap n3).Wrap n2).Wrap n1).name ∧
    (e.Wrap n).detail = e.detail ∧
    (((e.Wrap n3).Wrap n2).Wrap n1).detail = e.detail ∧
    (((NewError (str "inner") (str "d")).Wrap (str "n3")).Wrap (str "n2")).Wrap (str "n1")
      = ⟨str "n1.n2.n3.inner", str "d"⟩ := by
  refine ⟨?_, rfl, ?_, ?_, rfl, rfl, by decide⟩
  · simp [Error.Wrap, List.append_assoc]
  · exact ⟨n ++ str ".", rfl⟩
  · exact ⟨n1 ++ str "." ++ (n2 ++ str "." ++ (n3 ++ str ".")), by simp [Error.Wrap]⟩

/-! ## Storage configuration and the download limit -/

/-- C15 as stated fails: a negative override is non-zero, yet the merged
limit is the one of the base. -/
theorem C15_merge_counterexample :
    (-1 : Int) ≠ 0 ∧
    (StorageConfig.merge (envWith (connWith [])) ⟨1024, ⟨0, 0, 0, 0, 0, 1, 3⟩⟩
      ⟨-1, ⟨0, 0, 0, 0, 0, 0, 0⟩⟩).DownloadSizeLimit = 1024 ∧
    (StorageConfig.merge (envWith (connWith [])) ⟨1024, ⟨0, 0, 0, 0, 0, 1, 3⟩⟩
      ⟨-1, ⟨0, 0, 0, 0, 0, 0, 0⟩⟩).DownloadSizeLimit ≠ -1 := by
  decide

/-- C15, amended: `StorageConfig.merge` is right-biased on positive values of
the download size limit. The merged limit is the one of the override whenever
that is positive, and the one of the base when it is zero or negative; so
merging the zero override leaves the limit of the base unchanged. -/
theorem C15_merge_limit (E : Env) (base override : StorageConfig) :
    (override.DownloadSizeLimit > 0 →
      (base.merge E override).DownloadSizeLimit = override.DownloadSizeLimit) ∧
    (override.DownloadSizeLimit ≤ 0 →
      (base.merge E override).DownloadSizeLimit = base.DownloadSizeLimit) ∧
    (override.DownloadSizeLimit = 0 →
      (base.merge E override).DownloadSizeLimit = base.DownloadSizeLimit) := by
  refine ⟨?_, ?_, ?_⟩
  · intro h
    simp [StorageConfig.merge, h]
  · intro h
    simp [StorageConfig.merge, show ¬ override.DownloadSizeLimit > 0 by omega]
  · intro h
    simp [StorageConfig.merge, h]

/-- Witness of C15: an override of 2048 replaces the base limit 1024, the zero
override keeps it. -/
theorem C15_merge_limit_witness :
    (StorageConfig.merge (envWith (connWith [])) ⟨1024, ⟨0, 0, 0, 0, 0, 1, 3⟩⟩
      ⟨2048, ⟨0, 0, 0, 0, 0, 0, 0⟩⟩).DownloadSizeLimit = 2048 ∧
    (StorageConfig.merge (envWith (connWith [])) ⟨1024, ⟨0, 0, 0, 0, 0, 1, 3⟩⟩
      ⟨0, ⟨0, 0, 0, 0, 0, 0, 0⟩⟩).DownloadSizeLimit = 1024 :=
  ⟨(C15_merge_limit (envWith (connWith [])) ⟨1024, ⟨0, 0, 0, 0, 0, 1, 3⟩⟩
      ⟨2048, ⟨0, 0, 0, 0, 0, 0, 0⟩⟩).1 (by decide),
   (C15_merge_limit (envWith (connWith [])) ⟨1024, ⟨0, 0, 0, 0, 0, 1, 3⟩⟩
      ⟨0, ⟨0, 0, 0, 0, 0, 0, 0⟩⟩).2.2 rfl⟩

theorem Storage_Update_limit_pos (E : Env) (s : Storage) (config : StorageConfig)
    (h : 0 < s.downloadSizeLimit) : 0 < (s.Update E config).downloadSizeLimit := by
  unfold Storage.Update Storage.downloadSizeLimit Storage.setDownloadSizeLimit
  by_cases hc : config.DownloadSizeLimit > 0
  · simp only [hc, if_true]
  · simp only [hc, if_false]
    exact h

theorem foldl_Update_limit_pos (E : Env) (updates : List StorageConfig) :
    ∀ (s : Storage), 0 < s.downloadSizeLimit →
      0 < (updates.foldl (Storage.Update E) s).downloadSizeLimit := by
  induction updates with
  | nil => intro s h; exact h
  | cons u us ih =>
    intro s h
    exact ih _ (Storage_Update_limit_pos E s u h)

theorem NewStorage_limit (E : Env) (address group : GoString) (config : StorageConfig)
    (s : Storage) (h : NewStorage E address group config = (some s, none)) :
    s.downloadSizeLimit
      = if config.DownloadSizeLimit > 0 then config.DownloadSizeLimit else 128 * 1024 * 1024 := by
  unfold NewStorage at h
  simp only [] at h
  split at h
  · simp [Storage.wrapError] at h
  · simp only [Prod.mk.injEq, Option.some.injEq, and_true] at h
    subst h
    unfold Storage.downloadSizeLimit StorageConfig.merge defaultStorageConfig
    by_cases hc : config.DownloadSizeLimit > 0
    · simp [hc]
    · simp [hc]

/-- C19: the download size limit of a storage is always strictly positive.
For every config passed to `NewStorage` and every sequence of `Storage.Update`
calls with arbitrary configs, `downloadSizeLimit() > 0`, starting from the
128 MiB default when the config sets no positive limit; so every
`Storage.Download` request carries `respLimit > 0`, and a response header that
announces more than the limit gets `WrongPkgLengthErr`. -/
theorem C19_download_limit_positive (P : Proto) (E : Env) (address group : GoString)
    (config : StorageConfig) (s : Storage)
    (h : NewStorage E address group config = (some s, none)) (updates : List StorageConfig) :
    0 < s.downloadSizeLimit ∧
    (config.DownloadSizeLimit ≤ 0 → s.downloadSizeLimit = 128 * 1024 * 1024) ∧
    0 < (updates.foldl (Storage.Update E) s).downloadSizeLimit ∧
    (∀ (conn : Conn) (filename : GoString) (offset length : Int),
      0 < ((updates.foldl (Storage.Update E) s).downloadRequest P conn filename offset
        length).respLimit) ∧
    (∀ (conn : Conn) (filename : GoString) (offset length : Int) (hd : header) (rest : Bytes),
      0 ≤ hd.pkgLen → hd.pkgLen < 2 ^ 63 → hd.status = 0 → conn.input = hd.buffer ++ rest →
      hd.pkgLen > (updates.foldl (Storage.Update E) s).downloadSizeLimit →
      ∀ (maxAlloc : Nat),
      ∃ e, (request.readResponse maxAlloc ((updates.foldl (Storage.Update E) s).downloadRequest
          P conn filename offset length)).2 = .error e ∧ e.name = str "WrongPkgLengthErr") := by
  have h0 : 0 < s.downloadSizeLimit := by
    rw [NewStorage_limit E address group config s h]
    split
    · assumption
    · norm_num
  have h1 := foldl_Update_limit_pos E updates s h0
  refine ⟨h0, ?_, h1, fun _ _ _ _ => h1, ?_⟩
  · intro hc
    rw [NewStorage_limit E address group config s h, if_neg (by omega)]
  · intro conn filename offset length hd rest hp hq hs hc hgt maxAlloc
    have hr := readResponse_eq maxAlloc
      ((updates.foldl (Storage.Update E) s).downloadRequest P conn filename offset length)
      hd rest hp hq hs hc
    have hlim : ((updates.foldl (Storage.Update E) s).downloadRequest P conn filename offset
        length).respLimit = (updates.foldl (Storage.Update E) s).downloadSizeLimit := rfl
    rw [if_pos ⟨by rw [hlim]; exact h1, by rw [hlim]; exact hgt⟩] at hr
    rw [hr]
    exact ⟨_, rfl, rfl⟩

/-- Witness of C19: a storage created with the zero config and then updated
with a zero and a negative limit still has the 128 MiB default. -/
theorem C19_download_limit_positive_witness :
    ∃ s, NewStorage (envWith (connWith [])) (str "10.0.0.1:23000") (str "g1")
        ⟨0, ⟨0, 0, 0, 0, 0, 0, 0⟩⟩ = (some s, none) ∧
      0 < ([⟨0, ⟨0, 0, 0, 0, 0, 0, 0⟩⟩, ⟨-5, ⟨0, 0, 0, 0, 0, 0, 0⟩⟩].foldl
        (Storage.Update (envWith (connWith []))) s).downloadSizeLimit ∧
      s.downloadSizeLimit = 128 * 1024 * 1024 :=
  ⟨_, rfl,
    (C19_download_limit_positive exampleProto (envWith (connWith [])) (str "10.0.0.1:23000")
      (str "g1") ⟨0, ⟨0, 0, 0, 0, 0, 0, 0⟩⟩ _ rfl
      [⟨0, ⟨0, 0, 0, 0, 0, 0, 0⟩⟩, ⟨-5, ⟨0, 0, 0, 0, 0, 0, 0⟩⟩]).2.2.1,
    (C19_download_limit_positive exampleProto (envWith (connWith [])) (str "10.0.0.1:23000")
      (str "g1") ⟨0, ⟨0, 0, 0, 0, 0, 0, 0⟩⟩ _ rfl
      [⟨0, ⟨0, 0, 0, 0, 0, 0, 0⟩⟩, ⟨-5, ⟨0, 0, 0, 0, 0, 0, 0⟩⟩]).2.1 (by decide)⟩

/-! ## UploadSlave: the request -/

/-- C20: the request header built by `Storage.UploadSlave` carries the command
byte `STORAGE_PROTO_CMD_UPLOAD_FILE`, the opcode `Storage.Upload` sends for a
plain upload, with `pkgLen = 38 + len(master) + len(b)`, followed by
`master_len` and `content_len` as 8-byte big-endian integers, the suffix as a
16-byte field, `ext` as a 6-byte field and the master name; the body is `b`.
The command bytes of the two requests are equal for all inputs. -/
theorem C20_uploadSlave_header (P : Proto) (s : Storage) (conn : Conn) (b : Bytes)
    (master suffix ext : GoString) (hb : (38 + master.length + b.length : Nat) < 2 ^ 63) :
    (s.uploadSlaveRequest P conn b master suffix ext).header
      = header.buffer ⟨38 + master.length + b.length, P.STORAGE_PROTO_CMD_UPLOAD_FILE, 0⟩
          ++ PutUint64 master.length ++ PutUint64 b.length
          ++ (if suffix.length ≥ 16 then suffix.take 16
              else suffix ++ List.replicate (16 - suffix.length) NUL)
          ++ (if ext.length ≥ 6 then ext.take 6 else ext ++ List.replicate (6 - ext.length) NUL)
          ++ master ∧
    (s.uploadSlaveRequest P conn b master suffix ext).body = some b ∧
    (s.uploadSlaveRequest P conn b master suffix ext).header.getD 8 0
      = P.STORAGE_PROTO_CMD_UPLOAD_FILE ∧
    (∀ (s2 : Storage) (c2 : Conn) (b2 : Bytes) (pathIndex : Byte) (ext2 : GoString),
      (s2.uploadRequest P c2 b2 pathIndex ext2 false).header.getD 8 0
        = (s.uploadSlaveRequest P conn b master suffix ext).header.getD 8 0) := by
  have hb' : ((38 + master.length + b.length : Nat) : Int) < 2 ^ 63 := by exact_mod_cast hb
  have h1 : int64 (38 + (master.length : Int) + (b.length : Int))
      = 38 + (master.length : Int) + (b.length : Int) := by
    have := int64_nat (38 + master.length + b.length) hb'
    push_cast at this
    exact this
  have h2 : uint64 (int64 (master.length : Int)) = master.length :=
    uint64_int64_nat master.length (by push_cast at hb'; omega)
  have h3 : uint64 (int64 (b.length : Int)) = b.length :=
    uint64_int64_nat b.length (by push_cast at hb'; omega)
  have hcmd : ∀ (h : header) (tail : Bytes), (h.buffer ++ tail).getD 8 0 = h.cmd := by
    intro h tail
    rw [header_buffer_eq]
    simp [PutUint64]
  refine ⟨?_, rfl, ?_, ?_⟩
  · simp only [Storage.uploadSlaveRequest, binaryWriteInt64, h1, h2, h3, fixString_eq_ite,
      FDFS_FILE_EXT_NAME_MAX_LEN, FDFS_FILE_PREFIX_MAX_LEN]
  · simp only [Storage.uploadSlaveRequest, binaryWriteInt64, List.append_assoc]
    exact hcmd _ _
  · intro s2 c2 b2 pathIndex ext2
    simp only [Storage.uploadSlaveRequest, Storage.uploadRequest, binaryWriteInt64,
      List.append_assoc]
    rw [hcmd, hcmd]
    simp

/-- Witness of C20: a 3-byte slave upload for master `g1/M00/a` with suffix
`_s` and extension `jpg` announces 49 bytes under the opcode of a plain
upload. -/
theorem C20_uploadSlave_header_witness :
    (Storage.uploadSlaveRequest exampleProto (storageWith (connWith [])) (connWith [])
      [1, 2, 3] (str "g1/M00/a") (str "_s") (str "jpg")).header
      = [0, 0, 0, 0, 0, 0, 0, 49, 11, 0] ++ [0, 0, 0, 0, 0, 0, 0, 8] ++ [0, 0, 0, 0, 0, 0, 0, 3]
          ++ (str "_s" ++ List.replicate 14 NUL) ++ (str "jpg" ++ List.replicate 3 NUL)
          ++ str "g1/M00/a" :=
  ((C20_uploadSlave_header exampleProto (storageWith (connWith [])) (connWith [])
      [1, 2, 3] (str "g1/M00/a") (str "_s") (str "jpg") (by norm_num [str])).1).trans
    (by decide)

/-! ## The topology and the group lock -/

theorem sg_Storage_rw (sg : StorageGroup) (addr : GoString) (hw : sg.mtx.writer = false) :
    sg.Storage rwLocks addr
      = some (sg, match sg.storageMap addr with
                  | none => (none, false)
                  | some s => (some s, true)) := by
  obtain ⟨gn, b, mp, ⟨r, w⟩⟩ := sg
  simp only at hw
  subst hw
  simp only [StorageGroup.Storage, rwLocks, RWMutex.RLock, RWMutex.RUnlock]
  cases mp addr <;> simp

theorem sg_Storage_rw_writer (sg : StorageGroup) (addr : GoString)
    (hw : sg.mtx.writer = true) : sg.Storage rwLocks addr = none := by
  simp [StorageGroup.Storage, rwLocks, RWMutex.RLock, hw]

theorem sg_BaseConfig_rw (sg : StorageGroup) (hw : sg.mtx.writer = false) :
    sg.BaseConfig rwLocks
      = some ({ sg with mtx := ⟨sg.mtx.readers + 2, false⟩ }, sg.base) := by
  unfold StorageGroup.BaseConfig
  simp only [rwLocks, RWMutex.RLock, hw, Bool.false_eq_true, if_false]

theorem Lock_two (others : Nat) (w : Bool) : RWMutex.Lock ⟨others + 2, w⟩ = none := by
  simp [RWMutex.Lock]

theorem sg_Add_rw_held (sg : StorageGroup) (others : Nat) (s : Storage) :
    StorageGroup.Add rwLocks { sg with mtx := ⟨others + 2, false⟩ } s = none := by
  unfold StorageGroup.Add
  simp only [rwLocks, Lock_two]

theorem assign_self (c : Cluster) (p : Nat) (sg : StorageGroup) (h : c.deref p = some sg) :
    c.assign p sg = c := by
  unfold Cluster.assign
  unfold Cluster.deref at h
  have : c.objects.set p sg = c.objects := by
    apply List.ext_get?
    intro n
    by_cases hn : n = p
    · subst hn
      rw [List.get?_eq_getElem?] at h ⊢
      rw [List.get?_eq_getElem?, List.getElem?_set_self', h]
      simp [h]
    · rw [List.get?_eq_getElem?, List.get?_eq_getElem?, List.getElem?_set_ne (Ne.symm hn)]
  rw [this]

/-- After the miss the group holds two read holds, so whatever `NewStorage`
gives, `Cluster.Storage` returns no storage. -/
theorem Storage_after_miss (E : Env) (c : Cluster) (info : TrackerStoreInfo) (p : Nat)
    (sg : StorageGroup) (hw : sg.mtx.writer = false) :
    ∀ (r : Cluster × Option Storage × Option Error),
      (match sg.BaseConfig rwLocks with
        | none => none
        | some (obj, base) =>
          match NewStorage E info.Address info.Group base with
          | (some s, none) =>
            match obj.Add rwLocks s with
            | none => none
            | some obj => some (c.assign p obj, some s, none)
          | (_, err) => some (c.assign p obj, none, c.wrapError err)) = some r →
      r.2.1 = none := by
  intro r
  rw [sg_BaseConfig_rw sg hw]
  simp only []
  rcases hn : NewStorage E info.Address info.Group sg.base with ⟨a, b⟩
  cases a <;> cases b <;> simp [sg_Add_rw_held] <;> intro h <;> rw [← h]

theorem Storage_rw_hit (E : Env) (c : Cluster) (info : TrackerStoreInfo) (p : Nat)
    (sg : StorageGroup) (s : Storage)
    (hg : c.storageGroups info.Group = some p) (hd : c.deref p = some sg)
    (hw : sg.mtx.writer = false) (hs : sg.storageMap info.Address = some s) :
    Cluster.Storage rwLocks E c info = some (c, some s, none) := by
  unfold Cluster.Storage Cluster.StorageGroup
  simp only [hg, hd, sg_Storage_rw sg info.Address hw, hs, assign_self c p sg hd]

theorem Storage_rw_returns (E : Env) (c c1 : Cluster) (info : TrackerStoreInfo) (s : Storage)
    (h : Cluster.Storage rwLocks E c info = some (c1, some s, none)) :
    c1 = c ∧ ∃ p sg, c.storageGroups info.Group = some p ∧ c.deref p = some sg ∧
      sg.mtx.writer = false ∧ sg.storageMap info.Address = some s := by
  unfold Cluster.Storage Cluster.StorageGroup at h
  cases hg : c.storageGroups info.Group with
  | some p =>
    simp only [hg] at h
    cases hd : c.deref p with
    | none => simp [hd] at h
    | some sg =>
      simp only [hd] at h
      cases hw : sg.mtx.writer with
      | true => simp [sg_Storage_rw_writer sg info.Address hw] at h
      | false =>
        rw [sg_Storage_rw sg info.Address hw] at h
        cases hs : sg.storageMap info.Address with
        | some s2 =>
          simp only [hs, Option.some.injEq, Prod.mk.injEq, and_true] at h
          rw [assign_self c p sg hd] at h
          exact ⟨h.1.symm, p, sg, rfl, hd, hw, by rw [hs, h.2]⟩
        | none =>
          simp only [hs] at h
          have := Storage_after_miss E c info p sg hw _ h
          simp at this
  | none =>
    simp only [hg, Cluster.alloc, Cluster.AddStorageGroup, Cluster.deref, Cluster.assign,
      List.get?_eq_getElem?, List.getElem?_append_right (le_refl _), Nat.sub_self,
      List.getElem?_cons_zero] at h
    rw [sg_Storage_rw _ info.Address rfl] at h
    simp only [NewStorageGroup] at h
    have := Storage_after_miss E
      { c with objects := c.objects ++ [NewStorageGroup info.Group c.storageBaseConfig],
               storageGroups := (c.storageGroups.store info.Group c.objects.length) }
      info c.objects.length (NewStorageGroup info.Group c.storageBaseConfig) rfl _ h
    simp at this

theorem Storage_rw_miss (E : Env) (c : Cluster) (info : TrackerStoreInfo) (p : Nat)
    (sg : StorageGroup) (s : Storage)
    (hg : c.storageGroups info.Group = some p) (hd : c.deref p = some sg)
    (hw : sg.mtx.writer = false) (hs : sg.storageMap info.Address = none)
    (hn : NewStorage E info.Address info.Group sg.base = (some s, none)) :
    Cluster.Storage rwLocks E c info = none := by
  unfold Cluster.Storage Cluster.StorageGroup
  simp only [hg, hd, sg_Storage_rw sg info.Address hw, hs, sg_BaseConfig_rw sg hw, hn,
    sg_Add_rw_held]

theorem Storage_rw_new (E : Env) (c : Cluster) (info : TrackerStoreInfo) (s : Storage)
    (hg : c.storageGroups info.Group = none)
    (hn : NewStorage E info.Address info.Group c.storageBaseConfig = (some s, none)) :
    Cluster.Storage rwLocks E c info = none := by
  unfold Cluster.Storage Cluster.StorageGroup
  simp only [hg, Cluster.alloc, Cluster.AddStorageGroup, Cluster.deref,
    List.get?_eq_getElem?, List.getElem?_append_right (le_refl _), Nat.sub_self,
    List.getElem?_cons_zero]
  simp only [StorageGroup.Storage, StorageGroup.BaseConfig, StorageGroup.Add, rwLocks,
    NewStorageGroup, RWMutex.RLock, RWMutex.RUnlock, RWMutex.Lock, hn]
  simp [hn]

theorem clusterWith_WF (tconn sconn : Conn) : (clusterWith tconn sconn).WF := by
  intro g sg hg a s hs
  unfold Cluster.group clusterWith at hg
  simp only [GoMap.store] at hg
  split at hg
  · rename_i hk
    simp only [Option.some_bind, Cluster.deref, List.get?_eq_getElem?, List.getElem?_cons_zero,
      Option.some.injEq] at hg
    subst hg
    simp only [GoMap.store] at hs
    split at hs
    · rename_i ha
      simp only [Option.some.injEq] at hs
      subst hs
      exact ⟨ha.symm, hk.symm⟩
    · simp at hs
  · simp at hg

theorem install_rw (c : Cluster) (group : GoString) (base : StorageConfig) (s : Storage) :
    Cluster.install rwLocks c group base s
      = some { c with
          objects := c.objects ++ [{ NewStorageGroup group base with
            storageMap := GoMap.store (fun _ => none) s.address s }]
          storageGroups := c.storageGroups.store group c.objects.length } := by
  simp [Cluster.install, Cluster.alloc, Cluster.deref, Cluster.assign, Cluster.AddStorageGroup,
    StorageGroup.Add, rwLocks, RWMutex.Lock, RWMutex.Unlock, NewStorageGroup]

theorem install_WF (c c1 : Cluster) (group : GoString) (base : StorageConfig) (s : Storage)
    (hwf : c.WF) (hp : ∀ g p, c.storageGroups g = some p → p < c.objects.length)
    (hs : s.group = group) (h : Cluster.install rwLocks c group base s = some c1) :
    c1.WF ∧ c1.lookup group s.address = some s ∧
      ∀ g, g ≠ group → c1.group g = c.group g := by
  rw [install_rw, Option.some.injEq] at h
  subst h
  have hother : ∀ g, g ≠ group →
      Cluster.group { c with
          objects := c.objects ++ [{ NewStorageGroup group base with
            storageMap := GoMap.store (fun _ => none) s.address s }]
          storageGroups := c.storageGroups.store group c.objects.length } g = c.group g := by
    intro g hg
    unfold Cluster.group
    simp only [GoMap.store, if_neg hg]
    cases hq : c.storageGroups g with
    | none => rfl
    | some p =>
      have := hp g p hq
      simp only [Option.some_bind, Cluster.deref, List.get?_eq_getElem?]
      rw [List.getElem?_append_left this]
  have hself : Cluster.group { c with
          objects := c.objects ++ [{ NewStorageGroup group base with
            storageMap := GoMap.store (fun _ => none) s.address s }]
          storageGroups := c.storageGroups.store group c.objects.length } group
      = some { NewStorageGroup group base with
            storageMap := GoMap.store (fun _ => none) s.address s } := by
    simp [Cluster.group, GoMap.store, Cluster.deref]
  refine ⟨?_, ?_, hother⟩
  · intro g sg hg a x hx
    by_cases hgg : g = group
    · subst hgg
      rw [hself, Option.some.injEq] at hg
      subst hg
      simp only [GoMap.store] at hx
      split at hx
      · rename_i ha
        simp only [Option.some.injEq] at hx
        subst hx
        exact ⟨ha.symm, hs⟩
      · simp at hx
    · rw [hother g hgg] at hg
      exact hwf g sg hg a x hx
  · unfold Cluster.lookup
    rw [hself]
    simp [GoMap.store]

theorem install_Storage (E : Env) (c : Cluster) (group : GoString) (base : StorageConfig)
    (s : Storage) (pathIndex : Byte) :
    Cluster.Storage rwLocks E
        { c with
          objects := c.objects ++ [{ NewStorageGroup group base with
            storageMap := GoMap.store (fun _ => none) s.address s }]
          storageGroups := c.storageGroups.store group c.objects.length }
        ⟨s.address, group, pathIndex⟩
      = some ({ c with
          objects := c.objects ++ [{ NewStorageGroup group base with
            storageMap := GoMap.store (fun _ => none) s.address s }]
          storageGroups := c.storageGroups.store group c.objects.length }, some s, none) :=
  Storage_rw_hit E _ ⟨s.address, group, pathIndex⟩ c.objects.length
    { NewStorageGroup group base with storageMap := GoMap.store (fun _ => none) s.address s } s
    (by simp [GoMap.store]) (by simp [Cluster.deref]) rfl (by simp [GoMap.store])

/-- C16 as stated fails: the exported `NewStorageGroup`, `StorageGroup.Add` and
`Cluster.AddStorageGroup` put a storage whose `group` field is `g2` into the
group `g1` of a new cluster, and `Cluster.Storage` for `(g1, 10.0.0.1:23000)`
then returns that storage, so the returned storage has `s.group ≠ info.Group`. -/
theorem C16_storage_counterexample :
    Cluster.install rwLocks (New (str "Cluster")) (str "g1") ⟨0, ⟨0, 0, 0, 0, 0, 0, 0⟩⟩
        strayStorage = some strayCluster ∧
    Cluster.Storage rwLocks (envWith (connWith [])) strayCluster
        ⟨str "10.0.0.1:23000", str "g1", 0⟩ = some (strayCluster, some strayStorage, none) ∧
    strayStorage.group = str "g2" ∧ strayStorage.group ≠ str "g1" :=
  ⟨rfl, Storage_rw_hit _ _ _ 0 _ _ rfl rfl rfl rfl, rfl, by decide⟩

/-- C16, amended: with the mutex as `sync.RWMutex` performs it and the topology
as explicit state, on a topology in which every storage lives under its own
group and address: whenever `Cluster.Storage(info)` returns a storage `s`, the
group `info.Group` exists and holds `s` under `info.Address`,
`s.group = info.Group` and `s.address = info.Address`; a second
`Cluster.Storage(info)` returns the same `s` whatever the pool library would
do, so nothing is created; the topology is the one before the call, so every
entry is unchanged and the invariant is kept. The call does return the storage
found under `(info.Group, info.Address)` when no writer holds the group's
mutex. And a storage `s` with `s.group = group`, installed by the exported
`NewStorageGroup(group, base)`, `StorageGroup.Add` and
`Cluster.AddStorageGroup` (every stored group pointer being allocated), keeps
the invariant, leaves the other groups as they were, and is the storage
`Cluster.Storage` returns for `(group, s.address)`. -/
theorem C16_storage_returns (E : Env) (c : Cluster) (info : TrackerStoreInfo) (hwf : c.WF) :
    (∀ c1 s, Cluster.Storage rwLocks E c info = some (c1, some s, none) →
      (∃ sg1, c1.group info.Group = some sg1 ∧ sg1.storageMap info.Address = some s) ∧
      c1.lookup info.Group info.Address = some s ∧
      s.group = info.Group ∧ s.address = info.Address ∧
      (∀ E2, Cluster.Storage rwLocks E2 c1 info = some (c1, some s, none)) ∧
      (∀ g a, c1.lookup g a = c.lookup g a) ∧
      c1 = c ∧ c1.WF) ∧
    (∀ sg s, c.group info.Group = some sg → sg.mtx.writer = false →
      sg.storageMap info.Address = some s →
      Cluster.Storage rwLocks E c info = some (c, some s, none)) ∧
    (∀ (group : GoString) (base : StorageConfig) (s : Storage),
      (∀ g p, c.storageGroups g = some p → p < c.objects.length) → s.group = group →
      ∃ c1, Cluster.install rwLocks c group base s = some c1 ∧ c1.WF ∧
        c1.lookup group s.address = some s ∧
        (∀ g a, g ≠ group → c1.lookup g a = c.lookup g a) ∧
        (∀ pathIndex, Cluster.Storage rwLocks E c1 ⟨s.address, group, pathIndex⟩
          = some (c1, some s, none))) := by
  refine ⟨?_, ?_, ?_⟩
  · intro c1 s h
    obtain ⟨hc, p, sg, hg, hd, hw, hs⟩ := Storage_rw_returns E c c1 info s h
    subst hc
    have hgr : c1.group info.Group = some sg := by
      unfold Cluster.group
      rw [hg]
      exact hd
    have hx := hwf _ _ hgr _ _ hs
    refine ⟨⟨sg, hgr, hs⟩, ?_, hx.2, hx.1,
      fun E2 => Storage_rw_hit E2 c1 info p sg s hg hd hw hs, fun _ _ => rfl, rfl, hwf⟩
    unfold Cluster.lookup
    rw [hgr]
    exact hs
  · intro sg s hgr hw hs
    unfold Cluster.group at hgr
    cases hg : c.storageGroups info.Group with
    | none => rw [hg] at hgr; simp at hgr
    | some p =>
      rw [hg] at hgr
      exact Storage_rw_hit E c info p sg s hg hgr hw hs
  · intro group base s hp hs
    have hi := install_rw c group base s
    have hw := install_WF c _ group base s hwf hp hs hi
    refine ⟨_, hi, hw.1, hw.2.1, ?_, fun pathIndex => install_Storage E c group base s pathIndex⟩
    intro g a hg
    unfold Cluster.lookup
    rw [hw.2.2 g hg]

/-- Witness of C16: on the cluster whose group `g1` holds the storage at
`10.0.0.1:23000`, `Cluster.Storage` returns that storage and leaves the
topology as it was; and after a storage of group `g2` is installed in a new
group `g2`, `Cluster.Storage` returns it for `(g2, 10.0.0.1:23000)`. -/
theorem C16_storage_returns_witness :
    Cluster.Storage rwLocks (envWith (connWith [])) (clusterWith (connWith []) (connWith []))
        ⟨str "10.0.0.1:23000", str "g1", 0⟩
      = some (clusterWith (connWith []) (connWith []), some (storageWith (connWith [])), none) ∧
    (clusterWith (connWith []) (connWith [])).lookup (str "g1") (str "10.0.0.1:23000")
      = some (storageWith (connWith [])) ∧
    (storageWith (connWith [])).group = str "g1" ∧
    (storageWith (connWith [])).address = str "10.0.0.1:23000" ∧
    ∃ c1, Cluster.install rwLocks (clusterWith (connWith []) (connWith [])) (str "g2")
        ⟨0, ⟨0, 0, 0, 0, 0, 0, 0⟩⟩ strayStorage = some c1 ∧
      c1.lookup (str "g2") (str "10.0.0.1:23000") = some strayStorage ∧
      Cluster.Storage rwLocks (envWith (connWith [])) c1 ⟨str "10.0.0.1:23000", str "g2", 0⟩
        = some (c1, some strayStorage, none) :=
  have h := (C16_storage_returns (envWith (connWith [])) (clusterWith (connWith []) (connWith []))
    ⟨str "10.0.0.1:23000", str "g1", 0⟩ (clusterWith_WF _ _)).2.1 _ (storageWith (connWith []))
    rfl rfl rfl
  have k := (C16_storage_returns (envWith (connWith [])) (clusterWith (connWith []) (connWith []))
    ⟨str "10.0.0.1:23000", str "g1", 0⟩ (clusterWith_WF _ _)).1 _ _ h
  have m := (C16_storage_returns (envWith (connWith [])) (clusterWith (connWith []) (connWith []))
    ⟨str "10.0.0.1:23000", str "g1", 0⟩ (clusterWith_WF _ _)).2.2 (str "g2")
    ⟨0, ⟨0, 0, 0, 0, 0, 0, 0⟩⟩ strayStorage
    (by
      intro g p hg
      simp only [clusterWith, GoMap.store] at hg
      split at hg
      · simp only [Option.some.injEq] at hg
        subst hg
        decide
      · simp [New] at hg)
    rfl
  ⟨h, k.2.1, k.2.2.1, k.2.2.2.1,
    match m with
    | ⟨c1, h1, _, h3, _, h5⟩ => ⟨c1, h1, h3, h5 0⟩⟩

/-- C17: on the reader-writer lock as a count of read holds,
`StorageGroup.BaseConfig` (entered with no writer holding the mutex) acquires
the read lock twice and never releases it: it returns the group's base config
and leaves the count two higher than on entry. With these two holds in the
count, whatever the other holders do, the write lock is not granted, so a
following `StorageGroup.Add` on the group does not return, and neither does
`Cluster.Storage` on a lookup miss whose storage creation succeeds. -/
theorem C17_baseConfig_read_holds (sg : StorageGroup) (hw : sg.mtx.writer = false) :
    sg.BaseConfig rwLocks
      = some ({ sg with mtx := ⟨sg.mtx.readers + 2, false⟩ }, sg.base) ∧
    (∀ (others : Nat) (w : Bool), RWMutex.Lock ⟨others + 2, w⟩ = none) ∧
    (∀ (others : Nat) (s : Storage),
      StorageGroup.Add rwLocks { sg with mtx := ⟨others + 2, false⟩ } s = none) ∧
    (∀ (E : Env) (c : Cluster) (info : TrackerStoreInfo) (s : Storage),
      c.group info.Group = some sg → sg.storageMap info.Address = none →
      NewStorage E info.Address info.Group sg.base = (some s, none) →
      Cluster.Storage rwLocks E c info = none) ∧
    (∀ (E : Env) (c : Cluster) (info : TrackerStoreInfo) (s : Storage),
      c.storageGroups info.Group = none →
      NewStorage E info.Address info.Group c.storageBaseConfig = (some s, none) →
      Cluster.Storage rwLocks E c info = none) := by
  refine ⟨sg_BaseConfig_rw sg hw, Lock_two, sg_Add_rw_held sg, ?_, ?_⟩
  · intro E c info s hgr hs hn
    unfold Cluster.group at hgr
    cases hg : c.storageGroups info.Group with
    | none => rw [hg] at hgr; simp at hgr
    | some p =>
      rw [hg] at hgr
      exact Storage_rw_miss E c info p sg s hg hgr hw hs hn
  · intro E c info s hg hn
    exact Storage_rw_new E c info s hg hn

/-- Witness of C17: a fresh group, whose mutex nobody holds, has two read
holds after `BaseConfig` and refuses the write lock of `Add`. -/
theorem C17_baseConfig_read_holds_witness :
    ((NewStorageGroup (str "g1") ⟨0, ⟨0, 0, 0, 0, 0, 0, 0⟩⟩).BaseConfig rwLocks).map
        (fun r => (r.1.mtx, r.2))
      = some (⟨2, false⟩, ⟨0, ⟨0, 0, 0, 0, 0, 0, 0⟩⟩) ∧
    RWMutex.Lock ⟨2, false⟩ = none :=
  ⟨by rw [(C17_baseConfig_read_holds (NewStorageGroup (str "g1") ⟨0, ⟨0, 0, 0, 0, 0, 0, 0⟩⟩)
      rfl).1]; rfl,
   (C17_baseConfig_read_holds (NewStorageGroup (str "g1") ⟨0, ⟨0, 0, 0, 0, 0, 0, 0⟩⟩)
      rfl).2.1 0 false⟩

/-! ## Requests that are refused -/

theorem do_status2 (maxAlloc : Nat) (r : request) (data rest : Bytes)
    (hw : r.c.writeErr = none)
    (hd : data.length = 10) (hin : r.c.input = data ++ rest)
    (hv : 0 ≤ toInt64 (Uint64 (data.take 8))) (h2 : data.getD 9 0 = 2) :
    (r.do maxAlloc).2
      = .error ⟨str "ReadResponseHeaderErr", str "receive fileNotExist status code 2"⟩ := by
  have key : ∀ (c : Conn), c.input = data ++ rest →
      (request.readResponse maxAlloc { r with c := c }).2
        = .error ⟨str "ReadResponseHeaderErr", str "receive fileNotExist status code 2"⟩ := by
    intro c hc
    unfold request.readResponse
    rw [header_read_eq ⟨0, 0, 0⟩ c data rest hd hc, if_neg (by omega), h2, if_pos (by decide)]
    simp [header.statusCodeErr, NewError]
  unfold request.do Conn.Write
  rw [hw]
  simp only []
  cases r.body with
  | none => exact key _ hin
  | some body => exact key _ hin

/-! ## Delete: the error of a missing file -/

/-- C14 as stated fails: with the tracker pointing at the storage of group
`g1` at `10.0.0.1:23000` and the storage answering a delete with status 2,
`Cluster.Delete` on cluster `Cluster` returns an error whose name is
`Storage_g1:10.0.0.1:23000.ReadResponseHeaderErr`, not
`Cluster.Storage_g1_10.0.0.1:23000.FileNotExist`: the inner name is that of
the failed header read, and `fileNotExist` appears only in the detail. -/
theorem C14_delete_counterexample :
    (Cluster.Delete exampleProto rwLocks (envWith (connWith []))
      (clusterWith (connWith fetchAnswer) (connWith [0, 0, 0, 0, 0, 0, 0, 0, 100, 2]))
      (str "g1/M00/a")).map (fun r => r.2)
      = some (some ⟨str "Storage_g1:10.0.0.1:23000.ReadResponseHeaderErr",
          str "receive fileNotExist status code 2"⟩) ∧
    str "Storage_g1:10.0.0.1:23000.ReadResponseHeaderErr"
      ≠ str "Cluster.Storage_g1_10.0.0.1:23000.FileNotExist" ∧
    ¬ (str "FileNotExist" <:+ str "Storage_g1:10.0.0.1:23000.ReadResponseHeaderErr") := by
  decide

/-- C14, amended: when the fid splits, the tracker query and the storage
lookup succeed, and the storage node answers the delete request with a header
whose status byte is 2 (and whose length is not negative), `Cluster.Delete`
returns an error whose name path ends with the storage scope built from group
and address and the inner name of the failed header read,
`Storage_<group>:<address>.ReadResponseHeaderErr`, and whose detail is
`receive fileNotExist status code 2`. -/
theorem C14_delete_status2 (P : Proto) (L : Locks) (E : Env) (c c1 : Cluster)
    (fid group filename : GoString) (t : Tracker) (info : TrackerStoreInfo) (s : Storage)
    (conn : Conn) (data rest : Bytes)
    (hsplit : c.splitFid fid = (group, filename, none))
    (ht : c.Tracker E = some t)
    (hq : (t.QueryUpdateStorage P E.maxAlloc group filename).2 = some (some info, none))
    (hst : c.Storage L E info = some (c1, some s, none))
    (hget : s.pool.Get = .ok conn) (hw : conn.writeErr = none)
    (hd : data.length = 10) (hin : conn.input = data ++ rest)
    (hv : 0 ≤ toInt64 (Uint64 (data.take 8))) (h2 : data.getD 9 0 = 2) :
    ∃ e, Cluster.Delete P L E c fid = some (c1, some e) ∧
      (str "Storage_" ++ s.group ++ str ":" ++ s.address ++ str ".ReadResponseHeaderErr")
        <:+ e.name ∧
      e.detail = str "receive fileNotExist status code 2" := by
  have hdo := do_status2 E.maxAlloc (s.deleteRequest P conn filename) data rest hw hd hin hv h2
  have hdel : (s.Delete P E.maxAlloc filename).2
      = some (some ⟨str "Storage_" ++ s.group ++ str ":" ++ s.address ++ str "."
          ++ str "ReadResponseHeaderErr", str "receive fileNotExist status code 2"⟩) := by
    unfold Storage.Delete
    rw [hget]
    simp only []
    split
    · rename_i c2 err hh
      rw [hh] at hdo
      simp only [Response.error.injEq] at hdo
      subst hdo
      rfl
    · rename_i c2 recv hh
      rw [hh] at hdo
      simp at hdo
    · rename_i c2 hh
      rw [hh] at hdo
      simp at hdo
  refine ⟨⟨str "Storage_" ++ s.group ++ str ":" ++ s.address ++ str "."
      ++ str "ReadResponseHeaderErr", str "receive fileNotExist status code 2"⟩, ?_, ?_, rfl⟩
  · unfold Cluster.Delete
    simp only [hsplit, ht, hq, hst, hdel]
  · exact ⟨[], by simp [str]⟩

/-- Witness of C14: the scenario of the counterexample. -/
theorem C14_delete_status2_witness :
    ∃ e, Cluster.Delete exampleProto rwLocks (envWith (connWith []))
        (clusterWith (connWith fetchAnswer) (connWith [0, 0, 0, 0, 0, 0, 0, 0, 100, 2]))
        (str "g1/M00/a")
        = some (clusterWith (connWith fetchAnswer) (connWith [0, 0, 0, 0, 0, 0, 0, 0, 100, 2]),
            some e) ∧
      (str "Storage_" ++ str "g1" ++ str ":" ++ str "10.0.0.1:23000"
          ++ str ".ReadResponseHeaderErr") <:+ e.name ∧
      e.detail = str "receive fileNotExist status code 2" :=
  C14_delete_status2 exampleProto rwLocks (envWith (connWith []))
    (clusterWith (connWith fetchAnswer) (connWith [0, 0, 0, 0, 0, 0, 0, 0, 100, 2]))
    (clusterWith (connWith fetchAnswer) (connWith [0, 0, 0, 0, 0, 0, 0, 0, 100, 2]))
    (str "g1/M00/a") (str "g1") (str "M00/a") (trackerWith (connWith fetchAnswer))
    ⟨str "10.0.0.1:23000", str "g1", 0⟩
    (storageWith (connWith [0, 0, 0, 0, 0, 0, 0, 0, 100, 2]))
    (connWith [0, 0, 0, 0, 0, 0, 0, 0, 100, 2]) [0, 0, 0, 0, 0, 0, 0, 0, 100, 2] []
    (by decide) rfl (by decide)
    (Storage_rw_hit _ _ _ 0 _ _ rfl rfl rfl rfl)
    rfl rfl (by decide) (by decide) (by decide) (by decide)

/-! ## The `error` results of the cluster methods -/

/-- C18 fails on the code: in a run where the tracker query, the storage
lookup and the storage request all succeed, `Cluster.Upload`, `Cluster.Download`
and `Cluster.Append` return the `error` interface holding a nil `*Error`, which
does not compare equal to nil; and for all inputs the `error` returned by
`Cluster.Upload`, `UploadAppender`, `UploadSlave`, `Download` and `Append` is
never the nil interface. -/
theorem C18_error_interface_not_nil :
    (Cluster.Upload exampleProto rwLocks (envWith (connWith []))
        (clusterWith (connWith storeAnswer) (connWith (header.buffer ⟨33, 100, 0⟩ ++ uploadReply)))
        [1, 2, 3] (str "g1") (str "jpg")).map (fun r => (r.2.1, r.2.2, r.2.2.isNil))
      = some (str "g1/M01/AB/CD/xyz.jpg", GoError.errorPtr none, false) ∧
    (Cluster.Download exampleProto rwLocks (envWith (connWith []))
        (clusterWith (connWith fetchAnswer) (connWith (header.buffer ⟨3, 100, 0⟩ ++ [1, 2, 3])))
        (str "g1/M00/a")).map (fun r => (r.2.1, r.2.2, r.2.2.isNil))
      = some ([1, 2, 3], GoError.errorPtr none, false) ∧
    (Cluster.Append exampleProto rwLocks (envWith (connWith []))
        (clusterWith (connWith fetchAnswer) (connWith (header.buffer ⟨0, 100, 0⟩)))
        [1, 2, 3] (str "g1/M00/a")).map (fun r => (r.2, r.2.isNil))
      = some (GoError.errorPtr none, false) ∧
    (∀ P L E c b group ext,
      (Cluster.Upload P L E c b group ext).map (fun r => r.2.2.isNil) ≠ some true) ∧
    (∀ P L E c b group ext,
      (Cluster.UploadAppender P L E c b group ext).map (fun r => r.2.2.isNil) ≠ some true) ∧
    (∀ P L E c b master suffix ext,
      (Cluster.UploadSlave P L E c b master suffix ext).map (fun r => r.2.2.isNil)
        ≠ some true) ∧
    (∀ P L E c fid,
      (Cluster.Download P L E c fid).map (fun r => r.2.2.isNil) ≠ some true) ∧
    (∀ P L E c b fid,
      (Cluster.Append P L E c b fid).map (fun r => r.2.isNil) ≠ some true) := by
  refine ⟨by decide, by decide, by decide, ?_, ?_, ?_, ?_, ?_⟩
  · intro P L E c b group ext
    unfold Cluster.Upload
    split <;> simp [GoError.isNil]
  · intro P L E c b group ext
    unfold Cluster.UploadAppender
    split <;> simp [GoError.isNil]
  · intro P L E c b master suffix ext
    unfold Cluster.UploadSlave
    repeat' split
    all_goals simp [GoError.isNil]
  · intro P L E c fid
    unfold Cluster.Download
    split <;> simp [GoError.isNil]
  · intro P L E c b fid
    unfold Cluster.Append
    repeat' split
    all_goals simp [GoError.isNil]

/-! ## The registry -/

theorem addAll_keys (adds : List (Option ClusterRef)) :
    ∀ (c : Client), (∀ e ∈ c.clusters, ∃ a, e.1 = MapKey.clusterPtr a) →
      ∀ e ∈ (adds.foldl Client.AddCluster c).clusters, ∃ a, e.1 = MapKey.clusterPtr a := by
  induction adds with
  | nil => intro c h; exact h
  | cons x xs ih =>
    intro c h
    apply ih
    intro e he
    cases x with
    | none => exact h e he
    | some r =>
      simp only [Client.AddCluster, syncMapStore, List.mem_cons, List.mem_filter] at he
      rcases he with he | he
      · exact ⟨r.addr, by rw [he]⟩
      · exact h e he.1

theorem syncMapLoad_string (m : List (MapKey × ClusterRef)) (name : GoString)
    (h : ∀ e ∈ m, ∃ a, e.1 = MapKey.clusterPtr a) : syncMapLoad m (.string name) = none := by
  unfold syncMapLoad
  rw [Option.map_eq_none', List.find?_eq_none]
  intro e he
  obtain ⟨a, ha⟩ := h e he
  simp [ha]

/-- C12 fails on the code: `AddCluster` stores the cluster under the cluster
pointer itself, not under its name, while `Client.Cluster` looks a name up. So
after any sequence of `AddCluster` calls `Client.Cluster(n)` returns
`(nil, false)` for every name `n`, also the name of an added cluster, and a
registry-level `Delete` or `Upload` addressed to it returns `UnknownCluster`;
the added cluster is found only under its pointer. -/
theorem C12_addCluster_lookup :
    (∀ (adds : List (Option ClusterRef)) (n : GoString),
      (Client.addAll adds).Cluster n = (none, false)) ∧
    (∀ (P : Proto) (L : Locks) (E : Env) (adds : List (Option ClusterRef)) (n fid : GoString),
      (Client.Delete P L E (Client.addAll adds) n fid).map (fun r => r.2)
        = some (.errorPtr (some (unknownClusterErr n)))) ∧
    (∀ (P : Proto) (L : Locks) (E : Env) (adds : List (Option ClusterRef))
        (n group ext : GoString) (b : Bytes),
      (Client.Upload P L E (Client.addAll adds) n group ext b).map (fun r => r.2)
        = some ([], .errorPtr (some (unknownClusterErr n)))) ∧
    ((Client.addAll [some ⟨1, New (str "c1")⟩]).Cluster (str "c1")).2 = false ∧
    ((syncMapLoad (Client.addAll [some ⟨1, New (str "c1")⟩]).clusters (.clusterPtr 1)).map
      (fun r => r.target.name)) = some (str "c1") ∧
    (unknownClusterErr (str "c1")) = ⟨str "UnknownCluster", str "cluster c1 not exist"⟩ := by
  have h1 : ∀ (adds : List (Option ClusterRef)) (n : GoString),
      (Client.addAll adds).Cluster n = (none, false) := by
    intro adds n
    unfold Client.Cluster Client.addAll
    rw [syncMapLoad_string _ n (addAll_keys adds ⟨[]⟩ (by simp))]
  refine ⟨h1, ?_, ?_, ?_, by decide, by decide⟩
  · intro P L E adds n fid
    unfold Client.Delete
    rw [h1]
    rfl
  · intro P L E adds n group ext b
    unfold Client.Upload
    rw [h1]
    rfl
  · rw [h1]

end Fdfs
